import Mathlib

/-!
Verification of the JSON → Dolt synchronization engine (`backend/sync_dolt.py`,
with sort keys from `backend/sort_keys.py`) against its specification.

The embedding models Python JSON values as the mutual inductive `Json`;
dicts are association lists preserving insertion order (Python dicts are
insertion-ordered).  Database access (`dolt_sql_csv` queries) is modelled by
passing the query results as explicit parameters; emitted SQL statements are
the actual strings the Python code builds, accumulated in order exactly as
`SqlBatch.add` does.
-/

set_option maxRecDepth 10000

mutual

/-- Model of a decoded JSON value (as produced by Python's `json.load`).
Arrays and objects are given by the mutual types `JArr`/`JObj` so that all
recursive functions are structural (and hence kernel-reducible).  Python dict
keys of JSON objects are always strings; insertion order is preserved.
Floating-point numbers do not occur in the synced data and are not modelled. -/
inductive Json where
  | null : Json
  | bool (b : Bool) : Json
  | int (n : Int) : Json
  | str (s : String) : Json
  | arr (xs : JArr) : Json
  | obj (kvs : JObj) : Json

/-- Model of a JSON array (a Python list of JSON values). -/
inductive JArr where
  | nil : JArr
  | cons (hd : Json) (tl : JArr) : JArr

/-- Model of a JSON object (a Python dict with string keys, insertion ordered). -/
inductive JObj where
  | nil : JObj
  | cons (k : String) (v : Json) (tl : JObj) : JObj

end

mutual

/-- Structural decidable equality for `Json`. -/
def Json.beq : Json → Json → Bool
  | .null, .null => true
  | .bool a, .bool b => a == b
  | .int a, .int b => a == b
  | .str a, .str b => a == b
  | .arr a, .arr b => JArr.beq a b
  | .obj a, .obj b => JObj.beq a b
  | _, _ => false

/-- Structural decidable equality for `JArr`. -/
def JArr.beq : JArr → JArr → Bool
  | .nil, .nil => true
  | .cons a as, .cons b bs => Json.beq a b && JArr.beq as bs
  | _, _ => false

/-- Structural decidable equality for `JObj`. -/
def JObj.beq : JObj → JObj → Bool
  | .nil, .nil => true
  | .cons k v tl, .cons k' v' tl' => k == k' && Json.beq v v' && JObj.beq tl tl'
  | _, _ => false

end

mutual

theorem Json.jbeq_iff : ∀ a b : Json, Json.beq a b = true ↔ a = b
  | .null, b => by cases b <;> simp [Json.beq]
  | .bool x, b => by cases b <;> simp [Json.beq]
  | .int x, b => by cases b <;> simp [Json.beq]
  | .str x, b => by cases b <;> simp [Json.beq]
  | .arr xs, b => by
      cases b <;> simp [Json.beq]
      exact JArr.abeq_iff xs _
  | .obj kvs, b => by
      cases b <;> simp [Json.beq]
      exact JObj.obeq_iff kvs _

theorem JArr.abeq_iff : ∀ a b : JArr, JArr.beq a b = true ↔ a = b
  | .nil, b => by cases b <;> simp [JArr.beq]
  | .cons x xs, b => by
      cases b <;> simp [JArr.beq]
      exact and_congr (Json.jbeq_iff x _) (JArr.abeq_iff xs _)

theorem JObj.obeq_iff : ∀ a b : JObj, JObj.beq a b = true ↔ a = b
  | .nil, b => by cases b <;> simp [JObj.beq]
  | .cons k v tl, b => by
      cases b with
      | nil => simp [JObj.beq]
      | cons k' v' tl' =>
          simp only [JObj.beq, Bool.and_eq_true, beq_iff_eq, JObj.cons.injEq]
          constructor
          · rintro ⟨⟨h1, h2⟩, h3⟩
            exact ⟨h1, (Json.jbeq_iff v v').mp h2, (JObj.obeq_iff tl tl').mp h3⟩
          · rintro ⟨h1, h2, h3⟩
            exact ⟨⟨h1, (Json.jbeq_iff v v').mpr h2⟩, (JObj.obeq_iff tl tl').mpr h3⟩

end

instance : DecidableEq Json := fun a b =>
  decidable_of_iff (Json.beq a b = true) (Json.jbeq_iff a b)

instance : DecidableEq JArr := fun a b =>
  decidable_of_iff (JArr.beq a b = true) (JArr.abeq_iff a b)

instance : DecidableEq JObj := fun a b =>
  decidable_of_iff (JObj.beq a b = true) (JObj.obeq_iff a b)

/-- Convert a modelled JSON array to a Lean list. -/
def JArr.toList : JArr → List Json
  | .nil => []
  | .cons x xs => x :: xs.toList

/-- Convert a modelled JSON object to an association list of its items. -/
def JObj.toList : JObj → List (String × Json)
  | .nil => []
  | .cons k v tl => (k, v) :: tl.toList

/-- Build a modelled JSON array from a Lean list. -/
def JArr.ofList : List Json → JArr
  | [] => .nil
  | x :: xs => .cons x (JArr.ofList xs)

/-- Build a modelled JSON object from an association list. -/
def JObj.ofList : List (String × Json) → JObj
  | [] => .nil
  | (k, v) :: tl => .cons k v (JObj.ofList tl)

theorem JArr.toList_ofList_arr (l : List Json) : (JArr.ofList l).toList = l := by
  induction l with
  | nil => rfl
  | cons x xs ih => simp [JArr.ofList, JArr.toList, ih]

theorem JObj.toList_ofList_obj (l : List (String × Json)) : (JObj.ofList l).toList = l := by
  induction l with
  | nil => rfl
  | cons kv tl ih => cases kv; simp [JObj.ofList, JObj.toList, ih]

/-- An entity is one JSON object out of a category's array, kept as its item list. -/
abbrev Entity := List (String × Json)

/-- Python truthiness of a JSON value (`bool(v)`). -/
def truthy : Json → Bool
  | .null => false
  | .bool b => b
  | .int n => n != 0
  | .str s => s != ""
  | .arr .nil => false
  | .arr (.cons _ _) => true
  | .obj .nil => false
  | .obj (.cons _ _ _) => true

/-- Python `d.get(k)` on an entity: the value bound to key `k`, if present. -/
def pyGet (e : Entity) (k : String) : Option Json :=
  (e.find? (fun kv => kv.1 = k)).map (·.2)

/-- Python `d.get(k, default)` on an entity. -/
def pyGetD (e : Entity) (k : String) (d : Json) : Json :=
  (pyGet e k).getD d

/-- Python `d[k]` on an entity; in the modelled code paths the key is always
present (guarded by a truthiness check), so the missing case yields `null`. -/
def pyReq (e : Entity) (k : String) : Json :=
  pyGetD e k .null

/-- Python `d.get(k)` where the receiver is a JSON value expected to be an
object (returns `none` when the key is absent or the value is not an object). -/
def jget (j : Json) (k : String) : Option Json :=
  match j with
  | .obj kvs => pyGet kvs.toList k
  | _ => none

/-- Lookup by an arbitrary Python value in a dict whose keys are JSON-object
string keys: `d.get(key)` where `key` may be any value (a non-string key can
never match a string key). -/
def jlookup (kvs : List (String × Json)) (key : Json) : Option Json :=
  (kvs.find? (fun kv => Json.str kv.1 = key)).map (·.2)

/-- Lookup by a Python value in an association list with Python-value keys. -/
def plookup {β : Type} (kvs : List (Json × β)) (key : Json) : Option β :=
  (kvs.find? (fun kv => kv.1 = key)).map (·.2)

/-- Python dict assignment `d[k] = v` on an association list: updates the
value in place when the key is already bound (keeping its position), else
appends the new binding at the end — exactly Python's dict-update semantics. -/
def pyDictSet {κ β : Type} [DecidableEq κ] (kvs : List (κ × β)) (k : κ) (v : β) :
    List (κ × β) :=
  match kvs with
  | [] => [(k, v)]
  | (k', v') :: tl => if k' = k then (k, v) :: tl else (k', v') :: pyDictSet tl k v

/-- One component of a Python sort-key tuple: either a number (a rank or a
tier) or a string compared by Unicode code points.  The sort keys built in
`sort_keys.py` never mix components of different shapes at the same tuple
position, so the cross-shape ordering below is never exercised. -/
inductive LexAtom where
  | num (n : Int) : LexAtom
  | chars (cs : List Char) : LexAtom
deriving DecidableEq

/-- Python `<` on strings, as code-point lexicographic order on char lists. -/
def charsLtB : List Char → List Char → Bool
  | [], [] => false
  | [], _ :: _ => true
  | _ :: _, [] => false
  | x :: xs, y :: ys =>
      if x.toNat < y.toNat then true
      else if y.toNat < x.toNat then false
      else charsLtB xs ys

/-- Strict comparison of sort-key components. -/
def atomLtB : LexAtom → LexAtom → Bool
  | .num m, .num n => m < n
  | .chars cs, .chars ds => charsLtB cs ds
  | .num _, .chars _ => true
  | .chars _, .num _ => false

/-- Python `<=` on sort-key tuples (lexicographic over the components). -/
def lexLeB : List LexAtom → List LexAtom → Bool
  | [], _ => true
  | _ :: _, [] => false
  | a :: as, b :: bs =>
      if atomLtB a b then true
      else if atomLtB b a then false
      else lexLeB as bs

theorem char_eq_of_toNat_eq {x y : Char} (h : x.toNat = y.toNat) : x = y :=
  Char.eq_of_val_eq (UInt32.eq_of_val_eq (Fin.ext h))

theorem charsLtB_asymm : ∀ a b : List Char, charsLtB a b = true → charsLtB b a = false
  | [], [] => by simp [charsLtB]
  | [], _ :: _ => by simp [charsLtB]
  | _ :: _, [] => by simp [charsLtB]
  | x :: xs, y :: ys => by
      simp only [charsLtB]
      intro h
      rcases Nat.lt_trichotomy x.toNat y.toNat with hlt | heq | hgt
      · simp [Nat.lt_asymm hlt, hlt]
      · rw [heq] at h ⊢
        rw [if_neg (Nat.lt_irrefl _), if_neg (Nat.lt_irrefl _)] at h ⊢
        exact charsLtB_asymm xs ys h
      · simp [Nat.lt_asymm hgt, hgt] at h

theorem charsLtB_eq_of_not : ∀ a b : List Char, charsLtB a b = false →
    charsLtB b a = false → a = b
  | [], [] => fun _ _ => rfl
  | [], _ :: _ => by simp [charsLtB]
  | _ :: _, [] => by simp [charsLtB]
  | x :: xs, y :: ys => by
      simp only [charsLtB]
      intro h1 h2
      rcases Nat.lt_trichotomy x.toNat y.toNat with hlt | heq | hgt
      · simp [hlt] at h1
      · have hx : x = y := char_eq_of_toNat_eq heq
        subst hx
        rw [if_neg (Nat.lt_irrefl _), if_neg (Nat.lt_irrefl _)] at h1 h2
        rw [charsLtB_eq_of_not xs ys h1 h2]
      · simp [hgt] at h2

theorem charsLtB_trans : ∀ a b c : List Char, charsLtB a b = true →
    charsLtB b c = true → charsLtB a c = true
  | a, [], _ => by
      intro h1 _
      cases a <;> simp [charsLtB] at h1
  | [], _ :: _, c => by
      intro _ h2
      cases c with
      | nil => simp [charsLtB] at h2
      | cons z zs => simp [charsLtB]
  | x :: xs, y :: ys, c => by
      intro h1 h2
      cases c with
      | nil => simp [charsLtB] at h2
      | cons z zs =>
          simp only [charsLtB] at h1 h2 ⊢
          rcases Nat.lt_trichotomy x.toNat y.toNat with hxy | hxy | hxy
          · rcases Nat.lt_trichotomy y.toNat z.toNat with hyz | hyz | hyz
            · simp [Nat.lt_trans hxy hyz]
            · rw [← hyz]; simp [hxy]
            · simp [Nat.lt_asymm hyz, hyz] at h2
          · rcases Nat.lt_trichotomy y.toNat z.toNat with hyz | hyz | hyz
            · rw [hxy]; simp [hyz]
            · have hxz : x.toNat = z.toNat := hxy.trans hyz
              rw [hxy, if_neg (Nat.lt_irrefl _), if_neg (Nat.lt_irrefl _)] at h1
              rw [hyz, if_neg (Nat.lt_irrefl _), if_neg (Nat.lt_irrefl _)] at h2
              rw [hxz, if_neg (Nat.lt_irrefl _), if_neg (Nat.lt_irrefl _)]
              exact charsLtB_trans xs ys zs h1 h2
            · simp [Nat.lt_asymm hyz, hyz] at h2
          · simp [Nat.lt_asymm hxy, hxy] at h1

theorem atomLtB_asymm : ∀ a b : LexAtom, atomLtB a b = true → atomLtB b a = false
  | .num m, .num n => by
      simp only [atomLtB, decide_eq_true_eq, decide_eq_false_iff_not]
      omega
  | .num _, .chars _ => by simp [atomLtB]
  | .chars _, .num _ => by simp [atomLtB]
  | .chars cs, .chars ds => charsLtB_asymm cs ds

theorem atomLtB_eq_of_not : ∀ a b : LexAtom, atomLtB a b = false →
    atomLtB b a = false → a = b
  | .num m, .num n => by
      simp only [atomLtB, decide_eq_false_iff_not, LexAtom.num.injEq]
      omega
  | .num _, .chars _ => by simp [atomLtB]
  | .chars _, .num _ => by simp [atomLtB]
  | .chars cs, .chars ds => by
      intro h1 h2
      rw [charsLtB_eq_of_not cs ds h1 h2]

theorem atomLtB_trans : ∀ a b c : LexAtom, atomLtB a b = true →
    atomLtB b c = true → atomLtB a c = true
  | .num m, .num n, .num p => by
      simp only [atomLtB, decide_eq_true_eq]
      omega
  | .num _, _, .chars _ => by simp [atomLtB]
  | .num _, .chars _, .num _ => by simp [atomLtB]
  | .chars _, .num _, _ => by simp [atomLtB]
  | .chars _, .chars _, .num _ => by simp [atomLtB]
  | .chars cs, .chars ds, .chars es => charsLtB_trans cs ds es

theorem lexLeB_refl : ∀ a : List LexAtom, lexLeB a a = true
  | [] => rfl
  | x :: xs => by
      simp only [lexLeB]
      cases h : atomLtB x x with
      | true => simp
      | false => simp [lexLeB_refl xs]

theorem lexLeB_total : ∀ a b : List LexAtom, lexLeB a b = true ∨ lexLeB b a = true
  | [], _ => .inl rfl
  | _ :: _, [] => .inr rfl
  | x :: xs, y :: ys => by
      simp only [lexLeB]
      cases hxy : atomLtB x y with
      | true => left; simp
      | false =>
          cases hyx : atomLtB y x with
          | true => right; simp
          | false =>
              rcases lexLeB_total xs ys with h | h
              · left; simp [h]
              · right; simp [h]

theorem lexLeB_trans : ∀ a b c : List LexAtom, lexLeB a b = true →
    lexLeB b c = true → lexLeB a c = true
  | [], _, _ => by intro _ _; rfl
  | _ :: _, [], _ => by intro h _; simp [lexLeB] at h
  | _ :: _, _ :: _, [] => by intro _ h; simp [lexLeB] at h
  | x :: xs, y :: ys, z :: zs => by
      intro h1 h2
      simp only [lexLeB] at h1 h2 ⊢
      cases hxy : atomLtB x y with
      | true =>
          cases hyz : atomLtB y z with
          | true => simp [atomLtB_trans x y z hxy hyz]
          | false =>
              cases hzy : atomLtB z y with
              | true => simp [hyz, hzy] at h2
              | false =>
                  have hy : y = z := atomLtB_eq_of_not y z hyz hzy
                  subst hy
                  simp [hxy]
      | false =>
          cases hyx : atomLtB y x with
          | true => simp [hxy, hyx] at h1
          | false =>
              have hx : x = y := atomLtB_eq_of_not x y hxy hyx
              subst hx
              simp only [hxy, Bool.false_eq_true, if_false] at h1
              cases hyz : atomLtB x z with
              | true => simp [hyz]
              | false =>
                  cases hzy : atomLtB z x with
                  | true => simp [hyz, hzy] at h2
                  | false =>
                      simp only [hyz, hzy, Bool.false_eq_true, if_false] at h2 ⊢
                      exact lexLeB_trans xs ys zs h1 h2

theorem lexLeB_antisymm_eq : ∀ a b : List LexAtom, lexLeB a b = true →
    lexLeB b a = true → a = b
  | [], [] => fun _ _ => rfl
  | [], _ :: _ => by intro _ h; simp [lexLeB] at h
  | _ :: _, [] => by intro h _; simp [lexLeB] at h
  | x :: xs, y :: ys => by
      intro h1 h2
      simp only [lexLeB] at h1 h2
      cases hxy : atomLtB x y with
      | true => simp [hxy, atomLtB_asymm x y hxy] at h2
      | false =>
          cases hyx : atomLtB y x with
          | true => simp [hxy, hyx] at h1
          | false =>
              have hx : x = y := atomLtB_eq_of_not x y hxy hyx
              simp only [hxy, hyx, if_false] at h1 h2
              rw [hx, lexLeB_antisymm_eq xs ys h1 h2]

/-- Insert an element into a sorted list, after all elements whose key does
not exceed its own key; building a sort from this insertion yields exactly the
stable sort that Python's `sorted(data, key=...)` performs. -/
def pyInsert {α : Type} (le : α → α → Bool) (a : α) : List α → List α
  | [] => [a]
  | b :: l => if le a b then a :: b :: l else b :: pyInsert le a l

/-- Stable sort by a boolean comparison; the model of Python `sorted`. -/
def pySortedBy {α : Type} (le : α → α → Bool) (l : List α) : List α :=
  l.foldr (pyInsert le) []

/-- Python `sorted(data, key=f)` where `f` produces a sort-key tuple. -/
def pySorted {α : Type} (f : α → List LexAtom) (l : List α) : List α :=
  pySortedBy (fun a b => lexLeB (f a) (f b)) l

theorem pyInsert_perm {α : Type} (le : α → α → Bool) (a : α) :
    ∀ l : List α, (pyInsert le a l).Perm (a :: l)
  | [] => List.Perm.refl _
  | b :: l => by
      simp only [pyInsert]
      split
      · exact List.Perm.refl _
      · exact ((pyInsert_perm le a l).cons b).trans (List.Perm.swap a b l)

theorem pySortedBy_perm {α : Type} (le : α → α → Bool) :
    ∀ l : List α, (pySortedBy le l).Perm l
  | [] => List.Perm.refl _
  | x :: l => by
      show (pyInsert le x (pySortedBy le l)).Perm (x :: l)
      exact (pyInsert_perm le x _).trans ((pySortedBy_perm le l).cons x)

theorem pySorted_perm {α : Type} (f : α → List LexAtom) (l : List α) :
    (pySorted f l).Perm l :=
  pySortedBy_perm _ l

theorem pairwise_pyInsert {α : Type} (le : α → α → Bool)
    (htot : ∀ a b : α, le a b = true ∨ le b a = true)
    (htr : ∀ a b c : α, le a b = true → le b c = true → le a c = true) (a : α) :
    ∀ l : List α, l.Pairwise (fun x y => le x y = true) →
      (pyInsert le a l).Pairwise (fun x y => le x y = true)
  | [], _ => by simp [pyInsert]
  | b :: l, h => by
      simp only [pyInsert]
      split
      · next hab =>
          refine List.Pairwise.cons ?_ h
          intro y hy
          rcases List.mem_cons.mp hy with rfl | hy
          · exact hab
          · exact htr a b y hab (List.rel_of_pairwise_cons h hy)
      · next hab =>
          have hba : le b a = true := (htot a b).resolve_left (by simpa using hab)
          refine List.Pairwise.cons ?_ (pairwise_pyInsert le htot htr a l h.tail)
          intro y hy
          have hmem := (pyInsert_perm le a l).mem_iff.mp hy
          rcases List.mem_cons.mp hmem with rfl | hy2
          · exact hba
          · exact List.rel_of_pairwise_cons h hy2

theorem pairwise_pySortedBy {α : Type} (le : α → α → Bool)
    (htot : ∀ a b : α, le a b = true ∨ le b a = true)
    (htr : ∀ a b c : α, le a b = true → le b c = true → le a c = true) :
    ∀ l : List α, (pySortedBy le l).Pairwise (fun x y => le x y = true)
  | [] => List.Pairwise.nil
  | x :: l => by
      show (pyInsert le x (pySortedBy le l)).Pairwise _
      exact pairwise_pyInsert le htot htr x _ (pairwise_pySortedBy le htot htr l)

theorem pairwise_pySorted {α : Type} (f : α → List LexAtom) (l : List α) :
    (pySorted f l).Pairwise (fun x y => lexLeB (f x) (f y) = true) :=
  pairwise_pySortedBy _
    (fun a b => lexLeB_total (f a) (f b))
    (fun a b c => lexLeB_trans (f a) (f b) (f c)) l

theorem pyInsert_eq_cons {α : Type} (le : α → α → Bool) (a : α) :
    ∀ l : List α, (∀ x ∈ l, le a x = true) → pyInsert le a l = a :: l
  | [], _ => rfl
  | b :: l, h => by
      simp only [pyInsert]
      rw [if_pos (h b (List.mem_cons_self _ _))]

theorem filter_pyInsert {α : Type} (le : α → α → Bool)
    (htr : ∀ a b c : α, le a b = true → le b c = true → le a c = true)
    (p : α → Bool) (a : α) :
    ∀ l : List α, l.Pairwise (fun x y => le x y = true) →
      (pyInsert le a l).filter p =
        if p a then pyInsert le a (l.filter p) else l.filter p
  | [], _ => by
      cases hpa : p a <;> simp [pyInsert, List.filter, hpa]
  | b :: l, h => by
      have hsub : ∀ x ∈ List.filter p l, le b x = true :=
        fun x hx => List.rel_of_pairwise_cons h (List.mem_of_mem_filter hx)
      have ih := filter_pyInsert le htr p a l h.tail
      by_cases hab : le a b = true
      · cases hpa : p a with
        | true =>
            cases hpb : p b with
            | true => simp [pyInsert, List.filter_cons, hpa, hpb, hab]
            | false =>
                simp only [pyInsert, hab, if_true, List.filter_cons, hpa, hpb,
                  Bool.false_eq_true, if_false]
                exact (pyInsert_eq_cons le a _
                  (fun x hx => htr a b x hab (hsub x hx))).symm
        | false => simp [pyInsert, List.filter_cons, hpa, hab]
      · have hab' : le a b = false := by
          cases hv : le a b
          · rfl
          · exact absurd hv hab
        cases hpb : p b with
        | true =>
            simp only [pyInsert, List.filter_cons, hpb, hab', Bool.false_eq_true,
              if_false, if_true, ih]
            split <;> rfl
        | false => simp [pyInsert, List.filter_cons, hpb, hab', ih]

theorem filter_pySortedBy {α : Type} (le : α → α → Bool)
    (htot : ∀ a b : α, le a b = true ∨ le b a = true)
    (htr : ∀ a b c : α, le a b = true → le b c = true → le a c = true)
    (p : α → Bool) :
    ∀ l : List α, (pySortedBy le l).filter p = pySortedBy le (l.filter p)
  | [] => rfl
  | x :: l => by
      show (pyInsert le x (pySortedBy le l)).filter p = _
      rw [filter_pyInsert le htr p x _ (pairwise_pySortedBy le htot htr l)]
      rw [filter_pySortedBy le htot htr p l]
      rw [List.filter_cons]
      by_cases hpx : p x = true
      · rw [if_pos hpx, if_pos hpx]
        rfl
      · rw [if_neg hpx, if_neg hpx]

theorem filter_pySorted {α : Type} (f : α → List LexAtom) (p : α → Bool)
    (l : List α) : (pySorted f l).filter p = pySorted f (l.filter p) :=
  filter_pySortedBy _
    (fun a b => lexLeB_total (f a) (f b))
    (fun a b c => lexLeB_trans (f a) (f b) (f c)) p l

theorem eq_of_perm_of_pairwise {α : Type} (le : α → α → Bool) :
    ∀ l1 l2 : List α, l1.Pairwise (fun x y => le x y = true) →
      l2.Pairwise (fun x y => le x y = true) → l1.Perm l2 →
      (∀ a ∈ l1, le a a = true) →
      (∀ a ∈ l1, ∀ b ∈ l1, le a b = true → le b a = true → a = b) →
      l1 = l2
  | [], l2 => by
      intro _ _ hp _ _
      exact (List.Perm.nil_eq hp).symm ▸ rfl
  | a :: t1, l2 => by
      intro h1 h2 hp hrefl hanti
      cases l2 with
      | nil => exact absurd hp.symm (by simp)
      | cons b t2 =>
          have hbl1 : b ∈ a :: t1 := hp.mem_iff.mpr (List.mem_cons_self _ _)
          have hal2 : a ∈ b :: t2 := hp.mem_iff.mp (List.mem_cons_self _ _)
          have hab : le a b = true := by
            rcases List.mem_cons.mp hbl1 with rfl | hb
            · exact hrefl b (List.mem_cons_self _ _)
            · exact List.rel_of_pairwise_cons h1 hb
          have hba : le b a = true := by
            rcases List.mem_cons.mp hal2 with h | ha
            · rw [← h]
              exact hrefl a (List.mem_cons_self _ _)
            · exact List.rel_of_pairwise_cons h2 ha
          have hEq : a = b := hanti a (List.mem_cons_self _ _) b hbl1 hab hba
          subst hEq
          have hpt : t1.Perm t2 := hp.cons_inv
          rw [eq_of_perm_of_pairwise le t1 t2 h1.tail h2.tail hpt
            (fun x hx => hrefl x (List.mem_cons_of_mem _ hx))
            (fun x hx y hy => hanti x (List.mem_cons_of_mem _ hx) y
              (List.mem_cons_of_mem _ hy))]

/-- Whitespace recognised by Python `str.strip()` (ASCII fragment; the data
only ever contains ASCII whitespace). -/
def isSpaceChar (c : Char) : Bool :=
  c = ' ' || c = '\t' || c = '\n' || c = '\r' || c = '\x0b' || c = '\x0c'

/-- Python `s.strip()`. -/
def pyStrip (s : String) : String :=
  String.mk (((s.data.dropWhile isSpaceChar).reverse.dropWhile isSpaceChar).reverse)

/-- Python `s.lower()` (ASCII case folding; the game data is ASCII-cased). -/
def pyLower (s : String) : List Char :=
  s.data.map Char.toLower

/-- Rank of a string in a fixed priority list, `999` when absent — the model
of `SOME_RANK.get(value, _FALLBACK)` over `SOME_ORDER` in `sort_keys.py`. -/
def rankOfStrAux : List String → String → Nat → Nat
  | [], _, _ => 999
  | q :: qs, s, i => if q = s then i else rankOfStrAux qs s (i + 1)

/-- Rank of a string in a priority list (0-based index, fallback 999). -/
def rankOfStr (order : List String) (s : String) : Nat :=
  rankOfStrAux order s 0

/-- Rank lookup for a JSON value: only a string value can match a rank-table
key; anything else falls back to 999 (`RANK.get(v, 999)`). -/
def rankOf (order : List String) (v : Json) : Nat :=
  match v with
  | .str s => rankOfStr order s
  | _ => 999

/-- QUALITY_ORDER from `sort_keys.py`. -/
def QUALITY_ORDER : List String := ["UR", "SSR EX", "SSR+", "SSR", "SR", "R", "N", "C"]

/-- CLASS_ORDER from `sort_keys.py`. -/
def CLASS_ORDER : List String :=
  ["Guardian", "Priest", "Assassin", "Warrior", "Archer", "Mage"]

/-- FACTION_ORDER from `sort_keys.py`. -/
def FACTION_ORDER : List String :=
  ["Elemental Echo", "Wild Spirit", "Arcane Wisdom", "Sanctum Glory",
   "Otherworld Return", "Illusion Veil"]

/-- RESOURCE_CATEGORY_ORDER from `sort_keys.py`. -/
def RESOURCE_CATEGORY_ORDER : List String :=
  ["Currency", "Gift", "Item", "Material", "Summoning", "Shard"]

/-- Key-tuple component for `(x.get("name") or "").lower()`: the lower-cased
name when it is a truthy string, else the empty string.  (A truthy non-string
would raise `AttributeError` in Python and is outside the modelled domain.) -/
def keyStrLower (v : Json) : List Char :=
  match v with
  | .str s => pyLower s
  | _ => []

/-- Integer coercion used inside `subclass_sort_key`: `int(v or 0)`.  A
truthy non-numeric value would raise in Python; it is mapped to 0 here and
never arises in the verified statements. -/
def tierInt (v : Json) : Int :=
  match v with
  | .int n => n
  | .bool b => if b then 1 else 0
  | _ => 0

/-- `resource_sort_key` from `sort_keys.py`. -/
def resource_sort_key (r : Entity) : List LexAtom :=
  [.num (rankOf RESOURCE_CATEGORY_ORDER (pyGetD r "category" (.str ""))),
   .num (rankOf QUALITY_ORDER (pyGetD r "quality" (.str ""))),
   .chars (keyStrLower (pyGetD r "name" .null))]

/-- `code_sort_key` from `sort_keys.py` (defined there but, crucially, never
imported by `sync_dolt.py`). -/
def code_sort_key (c : Entity) : List LexAtom :=
  [.chars (keyStrLower (pyGetD c "code" .null))]

/-- `faction_name_sort_key` from `sort_keys.py`: rank of the stripped name in
the fixed faction order, then the lower-cased stripped name. -/
def faction_name_sort_key (name : Json) : List LexAtom :=
  let normalized :=
    match name with
    | .str s => pyStrip s
    | _ => ""
  [.num (rankOfStr FACTION_ORDER normalized), .chars (pyLower normalized)]

/-- `faction_sort_key` from `sort_keys.py`. -/
def faction_sort_key (f : Entity) : List LexAtom :=
  faction_name_sort_key (pyGetD f "name" (.str ""))

/-- `subclass_sort_key` from `sort_keys.py`. -/
def subclass_sort_key (sc : Entity) : List LexAtom :=
  [.num (rankOf CLASS_ORDER (pyGetD sc "class" (.str ""))),
   .num (tierInt (pyGetD sc "tier" (.int 0))),
   .chars (keyStrLower (pyGetD sc "name" .null))]

/-- `character_sort_key` from `sort_keys.py`. -/
def character_sort_key (c : Entity) : List LexAtom :=
  [.num (rankOf CLASS_ORDER (pyGetD c "character_class" (.str ""))),
   .num (rankOf QUALITY_ORDER (pyGetD c "quality" (.str ""))),
   .chars (keyStrLower (pyGetD c "name" .null))]

/-- Hex digit characters (lower case, as Python produces them). -/
def hexDigit (n : Nat) : Char :=
  if n = 0 then '0' else if n = 1 then '1' else if n = 2 then '2'
  else if n = 3 then '3' else if n = 4 then '4' else if n = 5 then '5'
  else if n = 6 then '6' else if n = 7 then '7' else if n = 8 then '8'
  else if n = 9 then '9' else if n = 10 then 'a' else if n = 11 then 'b'
  else if n = 12 then 'c' else if n = 13 then 'd' else if n = 14 then 'e'
  else 'f'

/-- Escape one character as inside a JSON string literal, following
`json.dumps` with `ensure_ascii=False`: backslash, double quote and the named
control escapes get two-character escapes, other control characters get a
`\u00xx` escape, and everything else (ASCII or not) is emitted verbatim. -/
def escJsonChar (c : Char) : List Char :=
  if c = '\\' then ['\\', '\\']
  else if c = '"' then ['\\', '"']
  else if c = '\n' then ['\\', 'n']
  else if c = '\r' then ['\\', 'r']
  else if c = '\t' then ['\\', 't']
  else if c = '\x08' then ['\\', 'b']
  else if c = '\x0c' then ['\\', 'f']
  else if c.toNat < 32 then
    ['\\', 'u', '0', '0', hexDigit (c.toNat / 16), hexDigit (c.toNat % 16)]
  else [c]

/-- A JSON string literal for `s`, as `json.dumps` writes it. -/
def jsonQuote (s : String) : String :=
  String.mk ('"' :: s.data.flatMap escJsonChar ++ ['"'])

/-- Join with `", "` — the default `json.dumps` item separator. -/
def joinComma : List String → String
  | [] => ""
  | [x] => x
  | x :: xs => x ++ ", " ++ joinComma xs

/-- Sort serialized object items by key, as `json.dumps(..., sort_keys=True)`
does (Python compares the key strings by code point). -/
def sortPairsByKey (l : List (String × String)) : List (String × String) :=
  pySorted (fun p => [.chars p.1.data]) l

mutual

/-- Canonical serialization of a JSON value:
`json.dumps(v, sort_keys=True, ensure_ascii=False)` (default separators
`", "` and `": "`, no indentation). -/
def serJson : Json → String
  | .null => "null"
  | .bool true => "true"
  | .bool false => "false"
  | .int n => toString n
  | .str s => jsonQuote s
  | .arr xs => "[" ++ joinComma (serArr xs) ++ "]"
  | .obj kvs =>
      "\x7b" ++
        joinComma ((sortPairsByKey (serObj kvs)).map
          (fun p => jsonQuote p.1 ++ ": " ++ p.2)) ++ "\x7d"

/-- Serialize each element of a JSON array. -/
def serArr : JArr → List String
  | .nil => []
  | .cons x xs => serJson x :: serArr xs

/-- Serialize each value of a JSON object, keeping the keys. -/
def serObj : JObj → List (String × String)
  | .nil => []
  | .cons k v tl => (k, serJson v) :: serObj tl

end

/-- UTF-8 encoding of one character (the model of `str.encode("utf-8")`). -/
def utf8Char (c : Char) : List Nat :=
  let n := c.toNat
  if n < 0x80 then [n]
  else if n < 0x800 then
    [0xC0 + n / 64, 0x80 + n % 64]
  else if n < 0x10000 then
    [0xE0 + n / 4096, 0x80 + (n / 64) % 64, 0x80 + n % 64]
  else
    [0xF0 + n / 262144, 0x80 + (n / 4096) % 64, 0x80 + (n / 64) % 64, 0x80 + n % 64]

/-- UTF-8 encoding of a string as a byte list. -/
def utf8Encode (s : String) : List Nat :=
  s.data.flatMap utf8Char

/-- Reduce to a 32-bit word (machine integers are `Nat` with explicit mod). -/
def w32 (n : Nat) : Nat := n % 4294967296

/-- 32-bit right rotation. -/
def rotr (k x : Nat) : Nat := w32 ((x >>> k) ||| (x <<< (32 - k)))

/-- The SHA-256 round constants. -/
def sha256K : List Nat :=
  [1116352408, 1899447441, 3049323471, 3921009573, 961987163, 1508970993,
   2453635748, 2870763221, 3624381080, 310598401, 607225278, 1426881987,
   1925078388, 2162078206, 2614888103, 3248222580, 3835390401, 4022224774,
   264347078, 604807628, 770255983, 1249150122, 1555081692, 1996064986,
   2554220882, 2821834349, 2952996808, 3210313671, 3336571891, 3584528711,
   113926993, 338241895, 666307205, 773529912, 1294757372, 1396182291,
   1695183700, 1986661051, 2177026350, 2456956037, 2730485921, 2820302411,
   3259730800, 3345764771, 3516065817, 3600352804, 4094571909, 275423344,
   430227734, 506948616, 659060556, 883997877, 958139571, 1322822218,
   1537002063, 1747873779, 1955562222, 2024104815, 2227730452, 2361852424,
   2428436474, 2756734187, 3204031479, 3329325298]

/-- The SHA-256 initial hash state. -/
def sha256H0 : List Nat :=
  [1779033703, 3144134277, 1013904242, 2773480762, 1359893119, 2600822924,
   528734635, 1541459225]

/-- SHA-256 message padding: append `0x80`, zero padding to 56 mod 64, then
the bit length as 8 big-endian bytes. -/
def sha256Pad (msg : List Nat) : List Nat :=
  let len := msg.length
  let bitLen := 8 * len
  let zeros := (120 - (len + 1) % 64) % 64
  msg ++ [0x80] ++ List.replicate zeros 0 ++
    [bitLen / 72057594037927936 % 256, bitLen / 281474976710656 % 256,
     bitLen / 1099511627776 % 256, bitLen / 4294967296 % 256,
     bitLen / 16777216 % 256, bitLen / 65536 % 256,
     bitLen / 256 % 256, bitLen % 256]

/-- Split a byte list into chunks of 64 bytes (structural accumulator
variant, so that the kernel can evaluate it). -/
def splitChunks : List Nat → List Nat → List (List Nat)
  | cur, [] => if cur.isEmpty then [] else [cur.reverse]
  | cur, b :: bs =>
      if cur.length = 63 then (cur.reverse ++ [b]) :: splitChunks [] bs
      else splitChunks (b :: cur) bs

/-- Split a byte list into chunks of 64 bytes. -/
def chunks64 (bs : List Nat) : List (List Nat) := splitChunks [] bs

/-- Big-endian 32-bit words of a 64-byte chunk. -/
def chunkWords : List Nat → List Nat
  | b0 :: b1 :: b2 :: b3 :: rest =>
      (((b0 * 256 + b1) * 256 + b2) * 256 + b3) :: chunkWords rest
  | _ => []

/-- Extend 16 schedule words to 64. -/
def sha256Extend (w : List Nat) (rounds : Nat) : List Nat :=
  match rounds with
  | 0 => w
  | r + 1 =>
      let i := w.length
      let w15 := w.getD (i - 15) 0
      let w2 := w.getD (i - 2) 0
      let w16 := w.getD (i - 16) 0
      let w7 := w.getD (i - 7) 0
      let s0 := (rotr 7 w15) ^^^ (rotr 18 w15) ^^^ (w15 >>> 3)
      let s1 := (rotr 17 w2) ^^^ (rotr 19 w2) ^^^ (w2 >>> 10)
      sha256Extend (w ++ [w32 (w16 + s0 + w7 + s1)]) r

/-- The eight SHA-256 working registers. -/
structure Sha256Regs where
  a : Nat
  b : Nat
  c : Nat
  d : Nat
  e : Nat
  f : Nat
  g : Nat
  h : Nat

/-- One SHA-256 compression round. -/
def sha256Round (r : Sha256Regs) (k w : Nat) : Sha256Regs :=
  let S1 := (rotr 6 r.e) ^^^ (rotr 11 r.e) ^^^ (rotr 25 r.e)
  let ch := (r.e &&& r.f) ^^^ ((4294967295 - r.e) &&& r.g)
  let temp1 := w32 (r.h + S1 + ch + k + w)
  let S0 := (rotr 2 r.a) ^^^ (rotr 13 r.a) ^^^ (rotr 22 r.a)
  let maj := (r.a &&& r.b) ^^^ (r.a &&& r.c) ^^^ (r.b &&& r.c)
  let temp2 := w32 (S0 + maj)
  { a := w32 (temp1 + temp2), b := r.a, c := r.b, d := r.c,
    e := w32 (r.d + temp1), f := r.e, g := r.f, h := r.g }

/-- Compress one 64-byte chunk into the running state. -/
def sha256Chunk (state : List Nat) (chunk : List Nat) : List Nat :=
  let w := sha256Extend (chunkWords chunk) 48
  let init : Sha256Regs :=
    { a := state.getD 0 0, b := state.getD 1 0, c := state.getD 2 0,
      d := state.getD 3 0, e := state.getD 4 0, f := state.getD 5 0,
      g := state.getD 6 0, h := state.getD 7 0 }
  let fin := (sha256K.zip w).foldl (fun r kw => sha256Round r kw.1 kw.2) init
  [w32 (state.getD 0 0 + fin.a), w32 (state.getD 1 0 + fin.b),
   w32 (state.getD 2 0 + fin.c), w32 (state.getD 3 0 + fin.d),
   w32 (state.getD 4 0 + fin.e), w32 (state.getD 5 0 + fin.f),
   w32 (state.getD 6 0 + fin.g), w32 (state.getD 7 0 + fin.h)]

/-- SHA-256 digest of a byte list as one natural number, reduced mod `2^256`
(the eight 32-bit state words concatenated big-endian are always below
`2^256`; the explicit reduction records the digest width). -/
def sha256Nat (msg : List Nat) : Nat :=
  let final := (chunks64 (sha256Pad msg)).foldl sha256Chunk sha256H0
  (final.foldl (fun acc h => acc * 4294967296 + w32 h) 0) %
    115792089237316195423570985008687907853269984665640564039457584007913129639936

/-- Build the 64-character lower-case hex digest from the digest number. -/
def hex64Aux : Nat → Nat → List Char → List Char
  | _, 0, acc => acc
  | n, k + 1, acc => hex64Aux (n / 16) k (hexDigit (n % 16) :: acc)

/-- The `hexdigest()` string of a SHA-256 digest number. -/
def hex64 (n : Nat) : String :=
  String.mk (hex64Aux n 64 [])

/-- SHA-256 hexdigest of a string, UTF-8 encoded:
`hashlib.sha256(s.encode("utf-8")).hexdigest()`. -/
def sha256Hex (s : String) : String :=
  hex64 (sha256Nat (utf8Encode s))

/-- `compute_hash` from `sync_dolt.py`: strip the volatile metadata fields
`last_updated` and `data_hash`, serialize canonically (sorted keys, stable
encoding, no indentation) and hash with SHA-256. -/
def compute_hash (entity : Entity) : String :=
  let clean := entity.filter (fun kv => kv.1 ≠ "last_updated" && kv.1 ≠ "data_hash")
  sha256Hex (serJson (.obj (JObj.ofList clean)))

/-- Python exceptions that the modelled code paths can raise. -/
inductive PyErr where
  | syncError (msg : String)
  | nameError (name : String)
  | valueError (msg : String)
  | typeError (msg : String)
  | keyError (key : String)
  | attributeError (msg : String)
deriving DecidableEq

instance {ε α : Type} [DecidableEq ε] [DecidableEq α] : DecidableEq (Except ε α) := fun a b =>
  match a, b with
  | .ok x, .ok y => decidable_of_iff (x = y) (by simp)
  | .error x, .error y => decidable_of_iff (x = y) (by simp)
  | .ok _, .error _ => isFalse (fun h => by cases h)
  | .error _, .ok _ => isFalse (fun h => by cases h)

/-- Python `str(value)` for the scalar values interpolated into messages and
SQL text.  (For lists/dicts Python uses `repr`; those cases are not reached
by any verified statement and are approximated by the JSON serialization.) -/
def pyStrOf : Json → String
  | .null => "None"
  | .bool b => if b then "True" else "False"
  | .int n => toString n
  | .str s => s
  | v => serJson v

/-- Character-level effect of the escape chain in `escape_sql`: the five
sequential `str.replace` calls commute into one character map because no
replacement output contains a later pattern. -/
def escSqlChar (c : Char) : List Char :=
  if c = '\\' then ['\\', '\\']
  else if c = '\x00' then []
  else if c = '\x27' then ['\\', '\x27']
  else if c = '\n' then ['\\', 'n']
  else if c = '\r' then ['\\', 'r']
  else [c]

/-- `escape_sql` from `sync_dolt.py`: `NULL` for `None`, `1`/`0` for bools
(checked before the numeric case), plain decimal for ints, and a quoted,
escaped string for everything else. -/
def escape_sql : Json → String
  | .null => "NULL"
  | .bool b => if b then "1" else "0"
  | .int n => toString n
  | v => String.mk ('\x27' :: (pyStrOf v).data.flatMap escSqlChar ++ ['\x27'])

/-- Parse a digit run for `int(...)`. -/
def parseDigits : List Char → Option Nat
  | [] => none
  | ds =>
      ds.foldl (fun acc c =>
        match acc with
        | none => none
        | some n => if c.isDigit then some (n * 10 + (c.toNat - 48)) else none)
        (some 0)

/-- Python `int(s)` on a string: strip whitespace, optional sign, decimal
digits; anything else raises `ValueError`. -/
def pyIntOfString (s : String) : Except PyErr Int :=
  match (pyStrip s).data with
  | '-' :: ds =>
      match parseDigits ds with
      | some n => .ok (-(n : Int))
      | none => .error (.valueError s)
  | '+' :: ds =>
      match parseDigits ds with
      | some n => .ok (n : Int)
      | none => .error (.valueError s)
  | ds =>
      match parseDigits ds with
      | some n => .ok (n : Int)
      | none => .error (.valueError s)

/-- Python `int(v)`: identity on ints, 0/1 on bools, string parsing on
strings, `TypeError` on anything else. -/
def pyInt : Json → Except PyErr Int
  | .int n => .ok n
  | .bool b => .ok (if b then 1 else 0)
  | .str s => pyIntOfString s
  | _ => .error (.typeError "int() argument")

/-- `(v or "").strip()`: empty for a falsy value, `strip` of a truthy
string; a truthy non-string raises `AttributeError`. -/
def pyOrEmptyStrip (j : Json) : Except PyErr String :=
  if truthy j then
    match j with
    | .str s => .ok (pyStrip s)
    | _ => .error (.attributeError "strip")
  else .ok ""

/-- `resolve_timestamp` from `sync_dolt.py`.  `old_timestamps` is the result
of `get_old_timestamps` — a mapping from natural-key strings to the pair
`(last_updated, data_hash)` of CSV strings; `table_hashes` is the per-table
slice of `hashes.json`.  Checks the hash store first (device independent),
then the local Dolt DB row, then falls back to `now`. -/
def resolve_timestamp (key : Json) (new_hash : String)
    (old_timestamps : List (String × String × String)) (now : Int)
    (table_hashes : Option (List (String × Json))) : Json :=
  let primary : Option Json :=
    match table_hashes with
    | none => none
    | some th =>
        match (jlookup th key).getD (.obj .nil) with
        | .obj kvs =>
            let entry := kvs.toList
            if pyGet entry "hash" = some (.str new_hash) then
              match pyGet entry "ts" with
              | some t => if truthy t then some t else none
              | none => none
            else none
        | _ => none
  match primary with
  | some t => t
  | none =>
      match (old_timestamps.find? (fun r => Json.str r.1 = key)).map (·.2) with
      | some old => if old.2 = new_hash && old.1 ≠ "" then .str old.1 else .int now
      | none => .int now

/-- `build_resource_id_map` from `sync_dolt.py`: walk the resources in
canonical sort order, skipping falsy and duplicate names, assigning ids
`1, 2, …` in walk order. -/
def build_resource_id_map (resources : List Entity) : List (Json × Nat) :=
  ((pySorted resource_sort_key resources).foldl
    (fun st r =>
      let name := pyGetD r "name" .null
      if !truthy name || (plookup st.1 name).isSome then st
      else (st.1 ++ [(name, st.2 + 1)], st.2 + 1))
    (([] : List (Json × Nat)), 0)).1

/-- Step of `build_subclass_maps`: process one subclass. -/
def buildSubclassStep (st : List (String × Nat) × List (String × String) × Nat)
    (sc : Entity) : Except PyErr (List (String × Nat) × List (String × String) × Nat) :=
  match pyOrEmptyStrip (pyGetD sc "name" .null) with
  | .error e => .error e
  | .ok name =>
      if name = "" || (st.1.find? (fun kv => kv.1 = name)).isSome then .ok st
      else
        match pyOrEmptyStrip (pyGetD sc "class" .null) with
        | .error e => .error e
        | .ok cls =>
            let sid := st.2.2 + 1
            .ok (st.1 ++ [(name, sid)], st.2.1 ++ [(name, cls)], sid)

/-- `build_subclass_maps` from `sync_dolt.py`: deterministic name → id and
name → class maps matching `sync_subclasses` insert order. -/
def build_subclass_maps (subclasses : List Entity) :
    Except PyErr (List (String × Nat) × List (String × String)) :=
  match (pySorted subclass_sort_key subclasses).foldl
      (fun acc sc =>
        match acc with
        | .error e => .error e
        | .ok st => buildSubclassStep st sc)
      (Except.ok (([], [], 0) :
        List (String × Nat) × List (String × String) × Nat)) with
  | .error e => .error e
  | .ok st => .ok (st.1, st.2.1)

/-- The run state threaded through a sync: the SQL batch contents (in
`SqlBatch.add` order), the console lines printed, and the `new_hashes`
accumulator. -/
structure St where
  stmts : List String
  prints : List String
  hashes : List (String × List (Json × Json))
deriving DecidableEq

/-- `batch.add(sql)`. -/
def addStmt (st : St) (s : String) : St := { st with stmts := st.stmts ++ [s] }

/-- A `print(...)` call. -/
def addPrint (st : St) (s : String) : St := { st with prints := st.prints ++ [s] }

/-- `new_hashes.setdefault(cat, {})[key] = v`. -/
def setHashAux (hs : List (String × List (Json × Json))) (cat : String)
    (key v : Json) : List (String × List (Json × Json)) :=
  match hs with
  | [] => [(cat, [(key, v)])]
  | (c, m) :: tl =>
      if c = cat then (c, pyDictSet m key v) :: tl
      else (c, m) :: setHashAux tl cat key v

/-- Record one entity's hash/timestamp in `new_hashes`. -/
def setHash (st : St) (cat : String) (key v : Json) : St :=
  { st with hashes := setHashAux st.hashes cat key v }

/-- The value written into the hash store: `{"hash": h, "ts": int(ts)}`. -/
def hashRec (h : String) (ts : Int) : Json :=
  .obj (.cons "hash" (.str h) (.cons "ts" (.int ts) .nil))

/-- `stored_hashes.get(cat, {})` as an item list.  (A stored non-dict value
would raise `AttributeError` on the subsequent `.get`; the hash store file is
always an object of objects, so that case is collapsed to the empty dict.) -/
def tableHashesOf (stored : List (String × Json)) (cat : String) :
    List (String × Json) :=
  match pyGet stored cat with
  | some (.obj kvs) => kvs.toList
  | _ => []

/-- Top-level names bound in the module namespace of `sync_dolt.py`: the
imports of its `from .sort_keys import (...)` block plus every module-level
binding the file itself creates.  Python resolves a bare identifier against
this namespace (then builtins) at use time. -/
def syncDoltGlobals : List String :=
  ["argparse", "csv", "hashlib", "io", "json", "subprocess", "sys", "time",
   "datetime", "Path",
   "QUALITY_RANK", "artifact_sort_key", "character_sort_key",
   "faction_sort_key", "gear_set_sort_key", "gear_sort_key",
   "golden_alliance_sort_key", "howlkin_sort_key", "noble_phantasm_sort_key",
   "resource_sort_key", "status_effect_sort_key", "subclass_sort_key",
   "useful_link_sort_key", "wyrmspell_sort_key",
   "SCRIPT_DIR", "ROOT_DIR", "DOLT_DIR", "DATA_DIR", "HASHES_FILE",
   "SyncError", "escape_sql", "dolt_sql", "dolt_sql_csv",
   "get_existing_tables", "get_table_columns", "get_column_type",
   "build_resource_id_map", "build_subclass_maps", "compute_hash",
   "get_old_timestamps", "TIMESTAMP_TABLES", "ensure_schema_extensions",
   "SqlBatch", "dolt_cmd", "load_json", "load_hashes", "save_hashes",
   "resolve_timestamp", "sync_factions", "sync_subclasses", "sync_characters",
   "sync_wyrmspells", "sync_resources", "sync_codes", "sync_status_effects",
   "sync_tier_lists", "sync_teams", "sync_useful_links", "sync_artifacts",
   "sync_howlkins", "sync_gear", "sync_golden_alliances",
   "sync_noble_phantasms", "sync_changelog", "main"]

/-- The parent-row INSERT that `sync_resources` emits. -/
def resourceInsert (i : Nat) (r : Entity) (ts : Json) (h : String) : String :=
  "INSERT INTO resources (id, name, quality, description, category, last_updated, data_hash) VALUES (" ++
    toString i ++ ", " ++ escape_sql (pyReq r "name") ++ ", " ++
    escape_sql (pyGetD r "quality" .null) ++ ", " ++
    escape_sql (pyGetD r "description" (.str "")) ++ ", " ++
    escape_sql (pyGetD r "category" (.str "")) ++ ", " ++
    escape_sql ts ++ ", " ++ escape_sql (.str h) ++ ");"

/-- The parent-row INSERT that `sync_codes` emits. -/
def codeInsert (i : Nat) (c : Entity) (ts : Json) (h : String) : String :=
  "INSERT INTO codes (id, code, active, last_updated, data_hash) VALUES (" ++
    toString i ++ ", " ++ escape_sql (pyReq c "code") ++ ", " ++
    escape_sql (pyGetD c "active" (.bool true)) ++ ", " ++
    escape_sql ts ++ ", " ++ escape_sql (.str h) ++ ");"

/-- The child-row INSERT for one code reward. -/
def codeRewardInsert (rid : Nat) (cid : Int) (resId : Nat) (qv : Json) : String :=
  "INSERT INTO code_rewards (id, code_id, resource_id, quantity) VALUES (" ++
    toString rid ++ ", " ++ toString cid ++ ", " ++
    escape_sql (.int (resId : Int)) ++ ", " ++ escape_sql qv ++ ");"

/-- The normalized rewards dict of a code entity: `c.get("rewards") or
c.get("reward")`, a list of `{name, quantity}` objects folded into a dict
(first position, last value — Python dict-comprehension semantics), a dict
taken as-is, anything else the empty dict.  A list element that is not an
object raises `AttributeError`. -/
def rewardsOfList : List Json → List (Json × Json) → Except PyErr (List (Json × Json))
  | [], acc => .ok acc
  | .obj kvs :: rest, acc =>
      let x := kvs.toList
      if truthy (pyGetD x "name" .null) then
        rewardsOfList rest (pyDictSet acc (pyReq x "name") (pyGetD x "quantity" (.int 0)))
      else rewardsOfList rest acc
  | _ :: _, _ => .error (.attributeError "get")

/-- Extract the rewards mapping of one code entity. -/
def buildRewards (c : Entity) : Except PyErr (List (Json × Json)) :=
  let raw :=
    if truthy (pyGetD c "rewards" .null) then pyGetD c "rewards" .null
    else pyGetD c "reward" .null
  match raw with
  | .arr xs => rewardsOfList xs.toList []
  | .obj kvs => .ok (kvs.toList.map (fun kv => (Json.str kv.1, kv.2)))
  | _ => .ok []

/-- The hard-error message for a reward naming an unknown resource. -/
def codeRewardErrMsg (code_value name : Json) : String :=
  "code \x27" ++ pyStrOf code_value ++ "\x27 reward resource \x27" ++
    pyStrOf name ++ "\x27 not found in resources.json"

/-- The per-entity loop of `sync_resources`: entities with a falsy `name` are
skipped (no id, no hash, no insert); a named entity bumps the id, computes
hash and resolved timestamp, records the hash-store entry and emits its
parent-row INSERT.  `int(ts)` can raise when a stored timestamp is not
numeric. -/
def resourcesLoop (table_hashes : List (String × Json))
    (old_ts : List (String × String × String)) (now : Int) :
    St → Nat → List Entity → (St × Nat) × Option PyErr
  | st, rid, [] => ((st, rid), none)
  | st, rid, r :: rest =>
      if truthy (pyGetD r "name" .null) then
        let rid' := rid + 1
        let h := compute_hash r
        let ts := resolve_timestamp (pyReq r "name") h old_ts now (some table_hashes)
        match pyInt ts with
        | .error e => ((st, rid'), some e)
        | .ok n =>
            resourcesLoop table_hashes old_ts now
              (addStmt (setHash st "resources" (pyReq r "name") (hashRec h n))
                (resourceInsert rid' r ts h))
              rid' rest
      else resourcesLoop table_hashes old_ts now st rid rest

/-- `{row.get("code"): int(row.get("id")) for row in code_rows if
row.get("code") and row.get("id")}`: `int()` on a malformed id raises. -/
def buildCodeIds : List (List (String × String)) → List (String × Int) →
    Except PyErr (List (String × Int))
  | [], acc => .ok acc
  | row :: rest, acc =>
      match (row.find? (fun kv => kv.1 = "code")).map (·.2),
          (row.find? (fun kv => kv.1 = "id")).map (·.2) with
      | some cs, some ids =>
          if cs ≠ "" && ids ≠ "" then
            match pyIntOfString ids with
            | .error e => .error e
            | .ok n => buildCodeIds rest (pyDictSet acc cs n)
          else buildCodeIds rest acc
      | _, _ => buildCodeIds rest acc

/-- Rewards loop of the `sync_resources` rebuild branch: falsy names are
skipped, an unresolved name raises `SyncError` before its row id is taken,
a resolved name emits a `code_rewards` INSERT. -/
def rebuildInner (resource_ids : List (Json × Nat)) (code_value : Json)
    (code_id : Int) :
    St → Nat → Nat → List (Json × Json) → (St × Nat × Nat) × Option PyErr
  | st, rid, rb, [] => ((st, rid, rb), none)
  | st, rid, rb, (name, qv) :: rest =>
      if truthy name then
        match plookup resource_ids name with
        | none => ((st, rid, rb), some (.syncError (codeRewardErrMsg code_value name)))
        | some resId =>
            rebuildInner resource_ids code_value code_id
              (addStmt st (codeRewardInsert (rid + 1) code_id resId qv))
              (rid + 1) (rb + 1) rest
      else rebuildInner resource_ids code_value code_id st rid rb rest

/-- Codes loop of the `sync_resources` rebuild branch (unreachable at run
time: evaluating `sorted(codes_data, key=code_sort_key)` raises `NameError`
first — see `sync_resources`). -/
def rebuildCodesLoop (resource_ids : List (Json × Nat))
    (code_ids : List (String × Int)) :
    St → Nat → Nat → List Entity → (St × Nat × Nat) × Option PyErr
  | st, rid, rb, [] => ((st, rid, rb), none)
  | st, rid, rb, c :: rest =>
      let cv := pyGetD c "code" .null
      if truthy cv then
        match (code_ids.find? (fun kv => Json.str kv.1 = cv)).map (·.2) with
        | some cid =>
            if cid ≠ 0 then
              match buildRewards c with
              | .error e => ((st, rid, rb), some e)
              | .ok rewards =>
                  match rebuildInner resource_ids cv cid st rid rb rewards with
                  | (res, some e) => (res, some e)
                  | ((st', rid', rb'), none) =>
                      rebuildCodesLoop resource_ids code_ids st' rid' rb' rest
            else rebuildCodesLoop resource_ids code_ids st rid rb rest
        | none => rebuildCodesLoop resource_ids code_ids st rid rb rest
      else rebuildCodesLoop resource_ids code_ids st rid rb rest

/-- `sync_resources` from `sync_dolt.py`.  Dolt queries are passed in as
parameters: `old_ts` is the `get_old_timestamps("resources", "name")`
result, `codeRewardCols` the `DESCRIBE code_rewards` columns, `codeRows` the
`SELECT id, code FROM codes` rows of the rebuild branch.  The branch over
`codes_data` resolves the bare name `code_sort_key` against the module
namespace; the name is absent, so reaching that branch raises `NameError`. -/
def sync_resources (data : List Entity) (existing_tables : List String)
    (resource_ids : List (Json × Nat)) (now : Int)
    (stored_hashes : List (String × Json))
    (old_ts : List (String × String × String))
    (codeRewardCols : List String) (codes_data : Option (List Entity))
    (codeRows : List (List (String × String))) (st0 : St) : St × Option PyErr :=
  if "resources" ∈ existing_tables then
    let table_hashes := tableHashesOf stored_hashes "resources"
    let st1 :=
      if "code_rewards" ∈ existing_tables && "resource_id" ∈ codeRewardCols then
        addStmt (addStmt st0 "DELETE FROM code_rewards;")
          "ALTER TABLE code_rewards AUTO_INCREMENT = 1;"
      else st0
    let st2 := addStmt (addStmt st1 "DELETE FROM resources;")
      "ALTER TABLE resources AUTO_INCREMENT = 1;"
    match resourcesLoop table_hashes old_ts now st2 0 (pySorted resource_sort_key data) with
    | ((st3, _), some e) => (st3, some e)
    | ((st3, r_id), none) =>
        match codes_data with
        | some cd =>
            if "codes" ∈ existing_tables && "code_rewards" ∈ existing_tables &&
                "resource_id" ∈ codeRewardCols then
              match buildCodeIds codeRows [] with
              | .error e => (st3, some e)
              | .ok code_ids =>
                  if "code_sort_key" ∈ syncDoltGlobals then
                    match rebuildCodesLoop resource_ids code_ids st3 0 0
                        (pySorted code_sort_key cd) with
                    | ((st4, _, _), some e) => (st4, some e)
                    | ((st4, _, rb), none) =>
                        (addPrint st4 ("  Synced " ++ toString r_id ++
                          " resources; rebuilt " ++ toString rb ++
                          " code_rewards links"), none)
                  else (st3, some (.nameError "code_sort_key"))
            else
              (addPrint st3 ("  Synced " ++ toString r_id ++
                " resources; rebuilt 0 code_rewards links"), none)
        | none => (addPrint st3 ("  Synced " ++ toString r_id ++ " resources"), none)
  else (addPrint st0 "  Skipping resources (table not found in Dolt schema)", none)

/-- Rewards loop of `sync_codes`: the row id is taken *before* resolution;
an unresolved truthy name raises `SyncError`; with no `resource_id` column a
resolved reward raises the schema `SyncError` instead of inserting. -/
def codesRewardLoop (resource_ids : List (Json × Nat)) (has_resource_id : Bool)
    (cid : Nat) (code_value : Json) :
    St → Nat → List (Json × Json) → (St × Nat) × Option PyErr
  | st, rid, [] => ((st, rid), none)
  | st, rid, (name, qv) :: rest =>
      if truthy name then
        let rid' := rid + 1
        match plookup resource_ids name with
        | none => ((st, rid'), some (.syncError (codeRewardErrMsg code_value name)))
        | some resId =>
            if has_resource_id then
              codesRewardLoop resource_ids has_resource_id cid code_value
                (addStmt st (codeRewardInsert rid' (cid : Int) resId qv)) rid' rest
            else
              ((st, rid'), some (.syncError
                "code_rewards table must include resource_id column"))
      else codesRewardLoop resource_ids has_resource_id cid code_value st rid rest

/-- The per-entity loop of `sync_codes` (note: `data` is *not* sorted). -/
def codesLoop (resource_ids : List (Json × Nat))
    (table_hashes : List (String × Json))
    (old_ts : List (String × String × String)) (now : Int)
    (has_cr has_rid : Bool) :
    St → Nat → Nat → List Entity → (St × Nat × Nat) × Option PyErr
  | st, cid, rid, [] => ((st, cid, rid), none)
  | st, cid, rid, c :: rest =>
      if truthy (pyGetD c "code" .null) then
        let cid' := cid + 1
        match buildRewards c with
        | .error e => ((st, cid', rid), some e)
        | .ok rewards =>
            let h := compute_hash c
            let ts := resolve_timestamp (pyReq c "code") h old_ts now (some table_hashes)
            match pyInt ts with
            | .error e => ((st, cid', rid), some e)
            | .ok n =>
                let st' := addStmt (setHash st "codes" (pyReq c "code") (hashRec h n))
                  (codeInsert cid' c ts h)
                if has_cr then
                  match codesRewardLoop resource_ids has_rid cid' (pyReq c "code")
                      st' rid rewards with
                  | ((stE, ridE), some e) => ((stE, cid', ridE), some e)
                  | ((st'', rid'), none) =>
                      codesLoop resource_ids table_hashes old_ts now has_cr has_rid
                        st'' cid' rid' rest
                else
                  codesLoop resource_ids table_hashes old_ts now has_cr has_rid
                    st' cid' rid rest
      else codesLoop resource_ids table_hashes old_ts now has_cr has_rid st cid rid rest

/-- `sync_codes` from `sync_dolt.py`.  `old_ts` is the
`get_old_timestamps("codes", "code")` result and `codeRewardCols` the
`DESCRIBE code_rewards` columns (only consulted when the table exists). -/
def sync_codes (data : List Entity) (existing_tables : List String)
    (resource_ids : List (Json × Nat)) (now : Int)
    (stored_hashes : List (String × Json))
    (old_ts : List (String × String × String))
    (codeRewardCols : List String) (st0 : St) : St × Option PyErr :=
  if "codes" ∈ existing_tables then
    let table_hashes := tableHashesOf stored_hashes "codes"
    let has_cr := "code_rewards" ∈ existing_tables
    let has_rid := has_cr && "resource_id" ∈ codeRewardCols
    let st1 :=
      if has_cr then
        addStmt (addStmt st0 "DELETE FROM code_rewards;")
          "ALTER TABLE code_rewards AUTO_INCREMENT = 1;"
      else st0
    let st2 := addStmt (addStmt st1 "DELETE FROM codes;")
      "ALTER TABLE codes AUTO_INCREMENT = 1;"
    match codesLoop resource_ids table_hashes old_ts now has_cr has_rid st2 0 0 data with
    | ((st3, _, _), some e) => (st3, some e)
    | ((st3, c_id, reward_id), none) =>
        if has_cr then
          (addPrint st3 ("  Synced " ++ toString c_id ++ " codes (" ++
            toString reward_id ++ " rewards)"), none)
        else
          (addPrint st3 ("  Synced " ++ toString c_id ++
            " codes (no code_rewards table; rewards ignored)"), none)
  else (addPrint st0 "  Skipping codes (table not found in Dolt schema)", none)

/-- Well-formedness of the stored timestamps consulted by the
`sync_resources` entity loop: `int(ts)` succeeds for every named entity, so
the loop raises nothing.  (A non-numeric stored timestamp would raise
`ValueError` inside the loop instead.) -/
def resLoopOk (th : List (String × Json)) (ots : List (String × String × String))
    (now : Int) : List Entity → Bool
  | [] => true
  | r :: rest =>
      if truthy (pyGetD r "name" .null) then
        match pyInt (resolve_timestamp (pyReq r "name") (compute_hash r) ots now
            (some th)) with
        | .error _ => false
        | .ok _ => resLoopOk th ots now rest
      else resLoopOk th ots now rest

/-- The parent-row INSERT statements the `sync_resources` entity loop emits
for an entity list, with sequential ids continuing from `rid`: each truthy
`name` takes the next id, a falsy one is passed over without consuming
one. -/
def resInsertsFrom (th : List (String × Json))
    (ots : List (String × String × String)) (now : Int) (rid : Nat) :
    List Entity → List String
  | [] => []
  | r :: rest =>
      if truthy (pyGetD r "name" .null) then
        resourceInsert (rid + 1) r
            (resolve_timestamp (pyReq r "name") (compute_hash r) ots now
              (some th)) (compute_hash r) ::
          resInsertsFrom th ots now (rid + 1) rest
      else resInsertsFrom th ots now rid rest

/-- The parent-row INSERT statements the `sync_codes` entity loop emits,
with sequential ids continuing from `cid` — in the order of the entity list
it is handed. -/
def codeInsertsFrom (th : List (String × Json))
    (ots : List (String × String × String)) (now : Int) (cid : Nat) :
    List Entity → List String
  | [] => []
  | c :: rest =>
      if truthy (pyGetD c "code" .null) then
        codeInsert (cid + 1) c
            (resolve_timestamp (pyReq c "code") (compute_hash c) ots now
              (some th)) (compute_hash c) ::
          codeInsertsFrom th ots now (cid + 1) rest
      else codeInsertsFrom th ots now cid rest

/-- The `name` values of the entities a resources pass actually emits (the
truthy-named ones), in pass order. -/
def truthyNames (l : List Entity) : List Json :=
  (l.filter (fun r => truthy (pyGetD r "name" .null))).map
    (fun r => pyGetD r "name" .null)

/-- Well-formedness of the inputs the `sync_codes` entity loop consults:
every truthy code entity has well-formed rewards and a numeric resolved
timestamp, so the loop raises nothing. -/
def codesLoopOk (th : List (String × Json))
    (ots : List (String × String × String)) (now : Int) : List Entity → Bool
  | [] => true
  | c :: rest =>
      if truthy (pyGetD c "code" .null) then
        match buildRewards c with
        | .error _ => false
        | .ok _ =>
            match pyInt (resolve_timestamp (pyReq c "code") (compute_hash c)
                ots now (some th)) with
            | .error _ => false
            | .ok _ => codesLoopOk th ots now rest
      else codesLoopOk th ots now rest

/-- Python iteration over a `.get(key, [])` value: only a list is iterable
in the modelled domain (iterating anything else raises). -/
def pyIterList (j : Json) : Except PyErr (List Json) :=
  match j with
  | .arr xs => .ok xs.toList
  | _ => .error (.typeError "object is not iterable")

/-- `j.get(k, d)` on a value expected to be a dict (raises otherwise). -/
def pyGetAttrD (j : Json) (k : String) (d : Json) : Except PyErr Json :=
  match j with
  | .obj kvs => .ok (pyGetD kvs.toList k d)
  | _ => .error (.attributeError "get")

/-- `j[k]` subscript on a value: `KeyError` when the key is missing,
`TypeError` when the value is not a dict. -/
def pyIndex (j : Json) (k : String) : Except PyErr Json :=
  match j with
  | .obj kvs =>
      match pyGet kvs.toList k with
      | some v => .ok v
      | none => .error (.keyError k)
  | _ => .error (.typeError "subscript")

/-- Warning printed for a faction naming an unknown artifact. -/
def warnFactionArtifact (fname : Json) (art : String) : String :=
  "  Warning: faction \x27" ++ pyStrOf fname ++
    "\x27 references unknown artifact \x27" ++ art ++ "\x27"

/-- Warning printed for a subclass assigned to a different class. -/
def warnSubclassClass (cname ccls sc : Json) (ec : String) : String :=
  "  Warning: character \x27" ++ pyStrOf cname ++ "\x27 class \x27" ++
    pyStrOf ccls ++ "\x27 has subclass \x27" ++ pyStrOf sc ++
    "\x27 assigned to class \x27" ++ ec ++ "\x27"

/-- Warning printed for a character naming an unknown subclass. -/
def warnUnknownSubclass (cname sc : Json) : String :=
  "  Warning: character \x27" ++ pyStrOf cname ++
    "\x27 references unknown subclass \x27" ++ pyStrOf sc ++ "\x27"

/-- The parent-row INSERT that `sync_factions` emits. -/
def factionInsert (i : Nat) (f : Entity) (ts : Json) (h : String) : String :=
  "INSERT INTO factions (id, name, wyrm, description, last_updated, data_hash) VALUES (" ++
    toString i ++ ", " ++ escape_sql (pyReq f "name") ++ ", " ++
    escape_sql (pyGetD f "wyrm" .null) ++ ", " ++
    escape_sql (pyGetD f "description" .null) ++ ", " ++
    escape_sql ts ++ ", " ++ escape_sql (.str h) ++ ");"

/-- The child-row INSERT for one recommended artifact of a faction. -/
def fraInsert (fid ord : Nat) (art : String) : String :=
  "INSERT INTO faction_recommended_artifacts (faction_id, sort_order, artifact_name) VALUES (" ++
    toString fid ++ ", " ++ toString ord ++ ", " ++ escape_sql (.str art) ++ ");"

/-- The `character_factions` INSERT (used both by the faction relink branch,
with a DB-sourced character id, and by `sync_characters`). -/
def cfInsert (cid : Int) (fid ord : Nat) : String :=
  "INSERT INTO character_factions (character_id, faction_id, sort_order) VALUES (" ++
    toString cid ++ ", " ++ toString fid ++ ", " ++ toString ord ++ ");"

/-- `str(artifact_name or "").strip()`. -/
def normArtifactName (j : Json) : String :=
  if truthy j then pyStrip (pyStrOf j) else ""

/-- `known_artifacts`: the set of stripped names of artifacts with a truthy
name (kept as a list; only membership and non-emptiness are consulted). -/
def knownArtifacts (artifacts : List Entity) : List String :=
  artifacts.filterMap (fun a =>
    if truthy (pyGetD a "name" .null) then
      some (pyStrip (pyStrOf (pyGetD a "name" (.str ""))))
    else none)

/-- Collect the normalized recommended-artifact names of one faction,
printing a warning for each name absent from a non-empty known set (the name
is appended — and later inserted — regardless). -/
def recArtifactsLoop (known : List String) (fname : Json) :
    St → List String → List Json → St × List String
  | st, acc, [] => (st, acc)
  | st, acc, a :: rest =>
      let nn := normArtifactName a
      if nn = "" then recArtifactsLoop known fname st acc rest
      else
        let st' :=
          if !known.isEmpty && nn ∉ known then
            addPrint st (warnFactionArtifact fname nn)
          else st
        recArtifactsLoop known fname st' (acc ++ [nn]) rest

/-- The per-entity loop of `sync_factions`.  The running index `i` comes
from `enumerate(data, 1)` and therefore counts *skipped* entities too. -/
def factionsLoop (known : List String) (table_hashes : List (String × Json))
    (old_ts : List (String × String × String)) (now : Int) :
    St → Nat → Nat → List Entity → (St × Nat) × Option PyErr
  | st, _, rc, [] => ((st, rc), none)
  | st, i, rc, f :: rest =>
      let i' := i + 1
      if truthy (pyGetD f "name" .null) then
        let h := compute_hash f
        let ts := resolve_timestamp (pyReq f "name") h old_ts now (some table_hashes)
        match pyInt ts with
        | .error e => ((st, rc), some e)
        | .ok n =>
            let st1 := addStmt (setHash st "factions" (pyReq f "name") (hashRec h n))
              (factionInsert i' f ts h)
            match pyIterList (pyGetD f "recommended_artifacts" (.arr .nil)) with
            | .error e => ((st1, rc), some e)
            | .ok arts =>
                let res := recArtifactsLoop known (pyReq f "name") st1 [] arts
                let st2 := (res.2.enumFrom 1).foldl
                  (fun s p => addStmt s (fraInsert i' p.1 p.2)) res.1
                factionsLoop known table_hashes old_ts now st2 i'
                  (rc + res.2.length) rest
      else factionsLoop known table_hashes old_ts now st i' rc rest

/-- `{row.get("name"): int(row.get("id")) for row in rows if row.get("name")
and row.get("id")}` over the `SELECT id, name FROM characters` rows. -/
def buildNameIds : List (List (String × String)) → List (String × Int) →
    Except PyErr (List (String × Int))
  | [], acc => .ok acc
  | row :: rest, acc =>
      match (row.find? (fun kv => kv.1 = "name")).map (·.2),
          (row.find? (fun kv => kv.1 = "id")).map (·.2) with
      | some nm, some ids =>
          if nm ≠ "" && ids ≠ "" then
            match pyIntOfString ids with
            | .error e => .error e
            | .ok n => buildNameIds rest (pyDictSet acc nm n)
          else buildNameIds rest acc
      | _, _ => buildNameIds rest acc

/-- The relink loop of `sync_factions` (`--target factions` only): rebuild
`character_factions` from `characters.json` against the freshly assigned
faction ids and the DB-resident character ids. -/
def relinkCharLoop (faction_ids : List (Json × Nat))
    (character_ids : List (String × Int)) :
    St → Nat → List Entity → (St × Nat) × Option PyErr
  | st, rl, [] => ((st, rl), none)
  | st, rl, ch :: rest =>
      let cname := pyGetD ch "name" .null
      if truthy cname then
        match (character_ids.find? (fun kv => Json.str kv.1 = cname)).map (·.2) with
        | some cid =>
            if cid ≠ 0 then
              match pyIterList (pyGetD ch "factions" (.arr .nil)) with
              | .error e => ((st, rl), some e)
              | .ok fnames =>
                  let res := (fnames.enumFrom 1).foldl
                    (fun acc p =>
                      match plookup faction_ids p.2 with
                      | some fid =>
                          if fid ≠ 0 then (addStmt acc.1 (cfInsert cid fid p.1), acc.2 + 1)
                          else acc
                      | none => acc)
                    (st, rl)
                  relinkCharLoop faction_ids character_ids res.1 res.2 rest
            else relinkCharLoop faction_ids character_ids st rl rest
        | none => relinkCharLoop faction_ids character_ids st rl rest
      else relinkCharLoop faction_ids character_ids st rl rest

/-- `sync_factions` from `sync_dolt.py`.  `old_ts` is the
`get_old_timestamps("factions", "name")` result; `characterRows` the
`SELECT id, name FROM characters` rows consulted by the relink branch. -/
def sync_factions (data artifacts : List Entity) (now : Int)
    (stored_hashes : List (String × Json))
    (old_ts : List (String × String × String))
    (characters_data : Option (List Entity))
    (characterRows : List (List (String × String))) (st0 : St) :
    St × Option PyErr :=
  let table_hashes := tableHashesOf stored_hashes "factions"
  let known := knownArtifacts artifacts
  let st1 := addStmt (addStmt (addStmt (addStmt st0
    "DELETE FROM faction_recommended_artifacts;")
    "ALTER TABLE faction_recommended_artifacts AUTO_INCREMENT = 1;")
    "DELETE FROM character_factions;")
    "DELETE FROM factions;"
  let sorted_data := pySorted faction_sort_key data
  match factionsLoop known table_hashes old_ts now st1 0 0 sorted_data with
  | ((st2, _), some e) => (st2, some e)
  | ((st2, rc), none) =>
      let count := (sorted_data.filter (fun f => truthy (pyGetD f "name" .null))).length
      match characters_data with
      | none =>
          (addPrint st2 ("  Synced " ++ toString count ++ " factions and " ++
            toString rc ++ " recommended artifact links"), none)
      | some chars =>
          let faction_ids := (sorted_data.enumFrom 1).foldl
            (fun m p =>
              if truthy (pyGetD p.2 "name" .null) then
                pyDictSet m (pyGetD p.2 "name" .null) p.1
              else m)
            ([] : List (Json × Nat))
          match buildNameIds characterRows [] with
          | .error e => (st2, some e)
          | .ok character_ids =>
              match relinkCharLoop faction_ids character_ids st2 0
                  (pySorted character_sort_key chars) with
              | ((st3, _), some e) => (st3, some e)
              | ((st3, rl), none) =>
                  (addPrint st3 ("  Synced " ++ toString count ++ " factions and " ++
                    toString rc ++ " recommended artifact links; rebuilt " ++
                    toString rl ++ " character_factions links"), none)

/-- The parent-row INSERT that `sync_subclasses` emits (`name` is the
stripped name string, not the raw field). -/
def subclassInsert (sid : Nat) (name : String) (sc : Entity) (ts : Json)
    (h : String) : String :=
  "INSERT INTO subclasses (id, name, tier, effect, last_updated, data_hash) VALUES (" ++
    toString sid ++ ", " ++ escape_sql (.str name) ++ ", " ++
    escape_sql (pyGetD sc "tier" (.int 0)) ++ ", " ++
    escape_sql (pyGetD sc "effect" .null) ++ ", " ++
    escape_sql ts ++ ", " ++ escape_sql (.str h) ++ ");"

/-- The class-link INSERT that `sync_subclasses` emits. -/
def sccInsert (lid sid : Nat) (cls : String) : String :=
  "INSERT INTO subclass_character_classes (id, subclass_id, character_class, sort_order) VALUES (" ++
    toString lid ++ ", " ++ toString sid ++ ", " ++ escape_sql (.str cls) ++ ", 1);"

/-- The bonus-row INSERT that `sync_subclasses` emits. -/
def sbInsert (bid sid ord : Nat) (bonus : Json) : String :=
  "INSERT INTO subclass_bonuses (id, subclass_id, sort_order, bonus_text) VALUES (" ++
    toString bid ++ ", " ++ toString sid ++ ", " ++ toString ord ++ ", " ++
    escape_sql bonus ++ ");"

/-- The trailing statement of `sync_subclasses` (the raw triple-quoted
string, whitespace included). -/
def subclassRelinkUpdate : String :=
  "\n        UPDATE character_subclasses cs\n        JOIN characters c ON cs.character_id = c.id\n        JOIN subclasses s ON cs.subclass_name = s.name\n        JOIN subclass_character_classes scc\n          ON scc.subclass_id = s.id\n         AND scc.character_class = c.character_class\n        SET cs.subclass_id = s.id;\n        "

/-- The bonus loop of one subclass. -/
def subclassBonusesLoop (sid : Nat) : St → Nat → List (Nat × Json) → St × Nat
  | st, bid, [] => (st, bid)
  | st, bid, (ord, bonus) :: rest =>
      if truthy bonus then
        subclassBonusesLoop sid (addStmt st (sbInsert (bid + 1) sid ord bonus))
          (bid + 1) rest
      else subclassBonusesLoop sid st bid rest

/-- The per-entity loop of `sync_subclasses`: a blank (stripped) name is
skipped with no side effect at all; ids `subclass_id`, `link_id`, `bonus_id`
advance only for processed rows. -/
def subclassesLoop (table_hashes : List (String × Json))
    (old_ts : List (String × String × String)) (now : Int) :
    St → Nat → Nat → Nat → List Entity → (St × Nat) × Option PyErr
  | st, sid, _, _, [] => ((st, sid), none)
  | st, sid, bid, lid, sc :: rest =>
      match pyOrEmptyStrip (pyGetD sc "name" .null) with
      | .error e => ((st, sid), some e)
      | .ok name =>
          if name = "" then subclassesLoop table_hashes old_ts now st sid bid lid rest
          else
            let sid' := sid + 1
            let h := compute_hash sc
            let ts := resolve_timestamp (.str name) h old_ts now (some table_hashes)
            match pyInt ts with
            | .error e => ((st, sid'), some e)
            | .ok n =>
                let st1 := addStmt (setHash st "subclasses" (.str name) (hashRec h n))
                  (subclassInsert sid' name sc ts h)
                match pyOrEmptyStrip (pyGetD sc "class" .null) with
                | .error e => ((st1, sid'), some e)
                | .ok cls =>
                    let stepLink : St × Nat :=
                      if cls ≠ "" then
                        (addStmt st1 (sccInsert (lid + 1) sid' cls), lid + 1)
                      else (st1, lid)
                    match pyIterList (pyGetD sc "bonuses" (.arr .nil)) with
                    | .error e => ((stepLink.1, sid'), some e)
                    | .ok bonuses =>
                        let res := subclassBonusesLoop sid' stepLink.1 bid
                          (bonuses.enumFrom 1)
                        subclassesLoop table_hashes old_ts now res.1 sid' res.2
                          stepLink.2 rest

/-- `sync_subclasses` from `sync_dolt.py`. -/
def sync_subclasses (data : List Entity) (now : Int)
    (stored_hashes : List (String × Json))
    (old_ts : List (String × String × String)) (st0 : St) : St × Option PyErr :=
  let table_hashes := tableHashesOf stored_hashes "subclasses"
  let st1 := addStmt (addStmt (addStmt (addStmt (addStmt (addStmt (addStmt st0
    "UPDATE character_subclasses SET subclass_id = NULL;")
    "DELETE FROM subclass_character_classes;")
    "DELETE FROM subclass_bonuses;")
    "DELETE FROM subclasses;")
    "ALTER TABLE subclass_character_classes AUTO_INCREMENT = 1;")
    "ALTER TABLE subclass_bonuses AUTO_INCREMENT = 1;")
    "ALTER TABLE subclasses AUTO_INCREMENT = 1;"
  match subclassesLoop table_hashes old_ts now st1 0 0 0
      (pySorted subclass_sort_key data) with
  | ((st2, _), some e) => (st2, some e)
  | ((st2, sid), none) =>
      let st3 := addStmt st2 subclassRelinkUpdate
      (addPrint st3 ("  Synced " ++ toString sid ++ " subclasses"), none)

/-- The parent-row INSERT that `sync_characters` emits. -/
def characterInsert (cid : Nat) (c : Entity) (talent_name ts : Json)
    (h : String) : String :=
  "INSERT INTO characters (id, name, title, quality, character_class, is_global, " ++
  "height, weight, origin, lore, quote, talent_name, noble_phantasm, last_updated, data_hash) VALUES (" ++
    toString cid ++ ", " ++ escape_sql (pyReq c "name") ++ ", " ++
    escape_sql (pyGetD c "title" .null) ++ ", " ++
    escape_sql (pyGetD c "quality" .null) ++ ", " ++
    escape_sql (pyGetD c "character_class" .null) ++ ", " ++
    escape_sql (pyGetD c "is_global" (.bool true)) ++ ", " ++
    escape_sql (pyGetD c "height" .null) ++ ", " ++
    escape_sql (pyGetD c "weight" .null) ++ ", " ++
    escape_sql (pyGetD c "origin" .null) ++ ", " ++
    escape_sql (pyGetD c "lore" .null) ++ ", " ++
    escape_sql (pyGetD c "quote" .null) ++ ", " ++
    escape_sql talent_name ++ ", " ++
    escape_sql (pyGetD c "noble_phantasm" .null) ++ ", " ++
    escape_sql ts ++ ", " ++ escape_sql (.str h) ++ ");"

/-- The `character_subclasses` INSERT when the `subclass_id` column exists. -/
def charSubclassInsertFull (sid cid : Nat) (linked : Option Nat) (sc : Json) :
    String :=
  "INSERT INTO character_subclasses (id, character_id, subclass_id, subclass_name) VALUES (" ++
    toString sid ++ ", " ++ toString cid ++ ", " ++
    escape_sql (match linked with | some n => .int (n : Int) | none => .null) ++
    ", " ++ escape_sql sc ++ ");"

/-- The `character_subclasses` INSERT on a legacy schema without
`subclass_id`. -/
def charSubclassInsertPlain (sid cid : Nat) (sc : Json) : String :=
  "INSERT INTO character_subclasses (id, character_id, subclass_name) VALUES (" ++
    toString sid ++ ", " ++ toString cid ++ ", " ++ escape_sql sc ++ ");"

/-- The `talent_levels` INSERT (`tl['level']` is interpolated raw). -/
def talentInsert (tid cid : Nat) (level effect : Json) : String :=
  "INSERT INTO talent_levels (id, character_id, level, effect) VALUES (" ++
    toString tid ++ ", " ++ toString cid ++ ", " ++ pyStrOf level ++ ", " ++
    escape_sql effect ++ ");"

/-- The `skills` INSERT. -/
def skillInsert (sid cid : Nat) (sk : List (String × Json)) : String :=
  "INSERT INTO skills (id, character_id, name, type, description, cooldown) VALUES (" ++
    toString sid ++ ", " ++ toString cid ++ ", " ++
    escape_sql (pyReq sk "name") ++ ", " ++ escape_sql (pyGetD sk "type" .null) ++
    ", " ++ escape_sql (pyGetD sk "description" .null) ++ ", " ++
    escape_sql (pyGetD sk "cooldown" (.int 0)) ++ ");"

/-- The subclass loop of one character: a truthy subclass name is *always*
inserted; a class mismatch or an unknown name only prints a warning (the
unknown case inserts `NULL` as the linked id). -/
def charSubclassesLoop (subclass_ids : Option (List (String × Nat)))
    (subclass_class_by_name : Option (List (String × String)))
    (cname ccls : Json) (has_col : Bool) (cid : Nat) :
    St → Nat → List Json → St × Nat
  | st, sid, [] => (st, sid)
  | st, sid, sc :: rest =>
      if truthy sc then
        let expected : Option String :=
          match subclass_class_by_name with
          | some m => (m.find? (fun kv => Json.str kv.1 = sc)).map (·.2)
          | none => none
        let st1 :=
          match expected with
          | some ec =>
              if ec ≠ "" && ccls ≠ Json.str ec then
                addPrint st (warnSubclassClass cname ccls sc ec)
              else st
          | none => st
        let lookupLinked : St × Option Nat :=
          match subclass_ids with
          | some m =>
              match (m.find? (fun kv => Json.str kv.1 = sc)).map (·.2) with
              | some v => (st1, some v)
              | none => (addPrint st1 (warnUnknownSubclass cname sc), none)
          | none => (st1, none)
        let sid' := sid + 1
        let st2 := addStmt lookupLinked.1
          (if has_col then charSubclassInsertFull sid' cid lookupLinked.2 sc
           else charSubclassInsertPlain sid' cid sc)
        charSubclassesLoop subclass_ids subclass_class_by_name cname ccls
          has_col cid st2 sid' rest
      else
        charSubclassesLoop subclass_ids subclass_class_by_name cname ccls
          has_col cid st sid rest

/-- The faction-link loop of one character: an unresolved faction name is
silently skipped (no row, no warning). -/
def charFactionsLoop (faction_ids : List (Json × Nat)) (cid : Nat) (st : St)
    (fnames : List Json) : St :=
  (fnames.enumFrom 1).foldl
    (fun s p =>
      match plookup faction_ids p.2 with
      | some fid => if fid ≠ 0 then addStmt s (cfInsert (cid : Int) fid p.1) else s
      | none => s)
    st

/-- The talent-level loop of one character: `tl['level']` raises `KeyError`
when absent (the id was already taken). -/
def talentLevelsLoop (cid : Nat) : St → Nat → List Json → (St × Nat) × Option PyErr
  | st, tid, [] => ((st, tid), none)
  | st, tid, tl :: rest =>
      let tid' := tid + 1
      match pyIndex tl "level" with
      | .error e => ((st, tid'), some e)
      | .ok lv =>
          talentLevelsLoop cid
            (addStmt st (talentInsert tid' cid lv ((jget tl "effect").getD .null)))
            tid' rest

/-- The skill loop of one character. -/
def skillsLoop (cid : Nat) : St → Nat → List Json → (St × Nat) × Option PyErr
  | st, kid, [] => ((st, kid), none)
  | st, kid, sk :: rest =>
      match pyGetAttrD sk "name" .null with
      | .error e => ((st, kid), some e)
      | .ok nm =>
          if truthy nm then
            match sk with
            | .obj kvs =>
                skillsLoop cid
                  (addStmt st (skillInsert (kid + 1) cid kvs.toList)) (kid + 1) rest
            | _ => ((st, kid), some (.attributeError "get"))
          else skillsLoop cid st kid rest

/-- The per-entity loop of `sync_characters`.  Counter order and the
placement of fallible operations mirror the source exactly. -/
def charactersLoop (faction_ids : List (Json × Nat))
    (subclass_ids : Option (List (String × Nat)))
    (subclass_class_by_name : Option (List (String × String)))
    (table_hashes : List (String × Json))
    (old_ts : List (String × String × String)) (now : Int) (has_col : Bool) :
    St → Nat → Nat → Nat → Nat → List Entity → (St × Nat) × Option PyErr
  | st, cid, _, _, _, [] => ((st, cid), none)
  | st, cid, sid, tid, kid, c :: rest =>
      if truthy (pyGetD c "name" .null) then
        let cid' := cid + 1
        let h := compute_hash c
        let ts := resolve_timestamp (pyReq c "name") h old_ts now (some table_hashes)
        match pyInt ts with
        | .error e => ((st, cid'), some e)
        | .ok n =>
            let st1 := setHash st "characters" (pyReq c "name") (hashRec h n)
            let talentNameRes : Except PyErr Json :=
              if truthy (pyGetD c "talent" .null) then
                pyGetAttrD (pyGetD c "talent" (.obj .nil)) "name" (.str "")
              else .ok (.str "")
            match talentNameRes with
            | .error e => ((st1, cid'), some e)
            | .ok talent_name =>
                let st2 := addStmt st1 (characterInsert cid' c talent_name ts h)
                match pyIterList (pyGetD c "subclasses" (.arr .nil)) with
                | .error e => ((st2, cid'), some e)
                | .ok scs =>
                    let resSub := charSubclassesLoop subclass_ids
                      subclass_class_by_name (pyReq c "name")
                      (pyGetD c "character_class" .null) has_col cid' st2 sid scs
                    match pyIterList (pyGetD c "factions" (.arr .nil)) with
                    | .error e => ((resSub.1, cid'), some e)
                    | .ok fnames =>
                        let st3 := charFactionsLoop faction_ids cid' resSub.1 fnames
                        let talentV :=
                          if truthy (pyGetD c "talent" .null) then
                            pyGetD c "talent" .null
                          else .obj .nil
                        match pyGetAttrD talentV "talent_levels" (.arr .nil) with
                        | .error e => ((st3, cid'), some e)
                        | .ok tlv =>
                            match pyIterList tlv with
                            | .error e => ((st3, cid'), some e)
                            | .ok tls =>
                                match talentLevelsLoop cid' st3 tid tls with
                                | ((stE, _), some e) => ((stE, cid'), some e)
                                | ((st4, tid'), none) =>
                                    match pyIterList (pyGetD c "skills" (.arr .nil)) with
                                    | .error e => ((st4, cid'), some e)
                                    | .ok sks =>
                                        match skillsLoop cid' st4 kid sks with
                                        | ((stE, _), some e) => ((stE, cid'), some e)
                                        | ((st5, kid'), none) =>
                                            charactersLoop faction_ids subclass_ids
                                              subclass_class_by_name table_hashes
                                              old_ts now has_col st5 cid'
                                              resSub.2 tid' kid' rest
      else
        charactersLoop faction_ids subclass_ids subclass_class_by_name
          table_hashes old_ts now has_col st cid sid tid kid rest

/-- `sync_characters` from `sync_dolt.py`.  `old_ts` is the
`get_old_timestamps("characters", "name")` result; `charSubclassCols` the
`DESCRIBE character_subclasses` columns.  Note that `faction_ids` is built by
enumerating the `factions` argument *as loaded* (not sorted). -/
def sync_characters (data factions : List Entity) (now : Int)
    (stored_hashes : List (String × Json))
    (old_ts : List (String × String × String))
    (subclass_ids : Option (List (String × Nat)))
    (subclass_class_by_name : Option (List (String × String)))
    (charSubclassCols : List String) (st0 : St) : St × Option PyErr :=
  let table_hashes := tableHashesOf stored_hashes "characters"
  let st1 := addStmt (addStmt (addStmt (addStmt (addStmt st0
    "DELETE FROM skills;")
    "DELETE FROM talent_levels;")
    "DELETE FROM character_subclasses;")
    "DELETE FROM character_factions;")
    "DELETE FROM characters;"
  let st2 := addStmt (addStmt (addStmt (addStmt st1
    "ALTER TABLE skills AUTO_INCREMENT = 1;")
    "ALTER TABLE talent_levels AUTO_INCREMENT = 1;")
    "ALTER TABLE character_subclasses AUTO_INCREMENT = 1;")
    "ALTER TABLE characters AUTO_INCREMENT = 1;"
  let faction_ids := (factions.enumFrom 1).foldl
    (fun m p =>
      if truthy (pyGetD p.2 "name" .null) then pyDictSet m (pyReq p.2 "name") p.1
      else m)
    ([] : List (Json × Nat))
  let has_col := "subclass_id" ∈ charSubclassCols
  match charactersLoop faction_ids subclass_ids subclass_class_by_name
      table_hashes old_ts now has_col st2 0 0 0 0
      (pySorted character_sort_key data) with
  | ((st3, _), some e) => (st3, some e)
  | ((st3, cid), none) =>
      (addPrint st3 ("  Synced " ++ toString cid ++ " characters"), none)

/-- One interaction of the Schema Evolution Ensurer with the outside world:
a read-only introspection query, an executed DDL/DML statement, or a printed
note. -/
inductive DbAction where
  | query (sql : String) : DbAction
  | exec (sql : String) : DbAction
  | note (msg : String) : DbAction
deriving DecidableEq

/-- The howlkins legacy-column slice of `ensure_schema_extensions` (the
`else` branch once the `howlkins` table exists): each legacy passive-effect
column found in `DESCRIBE howlkins` is dropped — with no preceding query
about row contents. -/
def ensureHowlkinsLegacy (howlkin_columns : List String) : List DbAction :=
  ["passive_effect", "passive_effects"].flatMap (fun legacy_col =>
    if legacy_col ∈ howlkin_columns then
      [.note ("  Dropping legacy howlkins." ++ legacy_col ++ " column"),
       .exec ("ALTER TABLE howlkins DROP COLUMN " ++ legacy_col ++ ";")]
    else [])

/-- The verification query of the `code_rewards.resource_name` backfill. -/
def unresolvedCountQuery : String :=
  "\n            SELECT COUNT(*) AS cnt\n            FROM code_rewards\n            WHERE resource_id IS NULL\n              AND resource_name IS NOT NULL\n              AND resource_name <> \x27\x27;\n            "

/-- `int((unresolved_rows[0] or {}).get("cnt", 0)) if unresolved_rows else 0`. -/
def unresolvedCountOf (rows : List (List (String × String))) :
    Except PyErr Int :=
  match rows with
  | [] => .ok 0
  | row :: _ =>
      match (row.find? (fun kv => kv.1 = "cnt")).map (·.2) with
      | some s => pyIntOfString s
      | none => .ok 0

/-- The actions of the `resource_name` backfill slice that precede the
gating decision: the backfill note, the backfill UPDATE, and the
unresolved-row verification query. -/
def ensureCodeRewardsBase : List DbAction :=
  [.note "  Backfilling code_rewards.resource_id from resource_name",
   .exec ("\n            UPDATE code_rewards cr\n            JOIN resources r ON r.name = cr.resource_name\n            SET cr.resource_id = r.id\n            WHERE cr.resource_id IS NULL;\n            "),
   .query unresolvedCountQuery]

/-- The `resource_name` backfill slice of `ensure_schema_extensions`
(entered once `code_rewards` exists and still has a `resource_name` column):
backfill ids from names, query how many rows remain unresolved, and only
when that count is zero drop the legacy column; otherwise keep it and print
a warning. -/
def ensureCodeRewardsLegacy (code_reward_columns : List String)
    (unresolvedRows : List (List (String × String))) :
    List DbAction × Option PyErr :=
  if "resource_name" ∈ code_reward_columns then
    match unresolvedCountOf unresolvedRows with
    | .error e => (ensureCodeRewardsBase, some e)
    | .ok cnt =>
        if cnt = 0 then
          (ensureCodeRewardsBase ++
            [.note "  Dropping legacy code_rewards.resource_name column",
             .exec "ALTER TABLE code_rewards DROP COLUMN resource_name;"], none)
        else
          (ensureCodeRewardsBase ++
            [.note ("  Keeping code_rewards.resource_name (could not map " ++
              toString cnt ++ " row(s) to resources.id)")], none)
  else ([], none)

/-- `SqlBatch.flush`: the whole accumulated statement list is sent as one
`BEGIN; …; COMMIT;` unit (nothing is sent for an empty batch). -/
def sqlBatchFlush (stmts : List String) : Option String :=
  if stmts.isEmpty then none
  else some ("BEGIN;\n" ++ String.intercalate "\n" stmts ++ "\nCOMMIT;")

/-- The tail of `main` for a run, after the target sync functions have run:
on a `SyncError` (or any uncaught exception) the run exits before
`batch.flush()`, so nothing is sent to the database and nothing is committed;
only an error-free run flushes.  The result is the transactional unit the
database receives, `none` when the run aborted or had nothing to send. -/
def runCommit (res : St × Option PyErr) : Option String :=
  match res.2 with
  | some _ => none
  | none => sqlBatchFlush res.1.stmts

/-- First-binding lookup in a string-keyed association list. -/
def alookup {V : Type} (kvs : List (String × V)) (k : String) : Option V :=
  (kvs.find? (fun kv => kv.1 = k)).map (·.2)

/-- The hash-store merge performed at the end of `main`:
`merged = {**stored_hashes, **new_hashes}` — Python dict-merge semantics:
every key of `stored_hashes` keeps its position, its value replaced when
`new_hashes` also binds it; keys only in `new_hashes` are appended in order. -/
def pyMergeDict {V : Type} (stored new : List (String × V)) : List (String × V) :=
  stored.map (fun kv => (kv.1, (alookup new kv.1).getD kv.2)) ++
    new.filter (fun kv => (alookup stored kv.1).isNone)

/-- Convenience: a run state with empty batch, console and hash store. -/
def emptySt : St := ⟨[], [], []⟩

/-- The primary (hash store) lookup of `resolve_timestamp`, in isolation:
`some ts` exactly when the store has a dict entry for `key` whose `hash`
equals the fresh hash and whose `ts` is truthy. -/
def hashStorePrimary (th : List (String × Json)) (key : Json)
    (new_hash : String) : Option Json :=
  match (jlookup th key).getD (.obj .nil) with
  | .obj kvs =>
      if pyGet kvs.toList "hash" = some (.str new_hash) then
        match pyGet kvs.toList "ts" with
        | some t => if truthy t then some t else none
        | none => none
      else none
  | _ => none

theorem resolve_eq_primary (key : Json) (new_hash : String)
    (old_ts : List (String × String × String)) (now : Int)
    (th : List (String × Json)) :
    resolve_timestamp key new_hash old_ts now (some th) =
      match hashStorePrimary th key new_hash with
      | some t => t
      | none =>
          match (old_ts.find? (fun r => Json.str r.1 = key)).map (·.2) with
          | some old =>
              if old.2 = new_hash && old.1 ≠ "" then .str old.1 else .int now
          | none => .int now := rfl

theorem resolve_primary_hit (th : List (String × Json)) (key : Json)
    (kvs : JObj) (new_hash : String) (t : Json)
    (old_ts : List (String × String × String)) (now : Int)
    (h1 : jlookup th key = some (.obj kvs))
    (h2 : pyGet kvs.toList "hash" = some (.str new_hash))
    (h3 : pyGet kvs.toList "ts" = some t) (h4 : truthy t = true) :
    resolve_timestamp key new_hash old_ts now (some th) = t := by
  rw [resolve_eq_primary]
  unfold hashStorePrimary
  rw [h1]
  simp [h2, h3, h4]

/-- The primary-source miss condition: no dict entry for `key` carries both
the matching hash and a truthy timestamp. -/
def storeMiss (th : List (String × Json)) (key : Json) (new_hash : String) : Prop :=
  ∀ kvs : JObj, (jlookup th key).getD (.obj .nil) = .obj kvs →
    pyGet kvs.toList "hash" = some (.str new_hash) →
    ∀ t, pyGet kvs.toList "ts" = some t → truthy t = false

theorem storeMiss_primary_none (th : List (String × Json)) (key : Json)
    (new_hash : String) (hmiss : storeMiss th key new_hash) :
    hashStorePrimary th key new_hash = none := by
  unfold hashStorePrimary
  split
  · next kvs hk =>
      by_cases hhash : pyGet kvs.toList "hash" = some (.str new_hash)
      · rw [if_pos hhash]
        cases hts' : pyGet kvs.toList "ts" with
        | none => rfl
        | some t => simp [hmiss kvs hk hhash t hts']
      · rw [if_neg hhash]
  · rfl

theorem resolve_fallback_hit (th : List (String × Json)) (key : Json)
    (new_hash : String) (old_ts : List (String × String × String)) (now : Int)
    (k ts0 hsh : String)
    (hmiss : storeMiss th key new_hash)
    (hfind : old_ts.find? (fun r => Json.str r.1 = key) = some (k, ts0, hsh))
    (hh : hsh = new_hash) (hts : ts0 ≠ "") :
    resolve_timestamp key new_hash old_ts now (some th) = .str ts0 := by
  rw [resolve_eq_primary, storeMiss_primary_none th key new_hash hmiss, hfind]
  simp [hh, hts]

theorem resolve_miss_now (th : List (String × Json)) (key : Json)
    (new_hash : String) (old_ts : List (String × String × String)) (now : Int)
    (hmiss : storeMiss th key new_hash)
    (hold : ∀ k ts0 hsh, old_ts.find? (fun r => Json.str r.1 = key) =
      some (k, ts0, hsh) → hsh = new_hash → ts0 ≠ "" → False) :
    resolve_timestamp key new_hash old_ts now (some th) = .int now := by
  rw [resolve_eq_primary, storeMiss_primary_none th key new_hash hmiss]
  cases hf : old_ts.find? (fun r => Json.str r.1 = key) with
  | none => simp
  | some p =>
      obtain ⟨k, ts0, hsh⟩ := p
      simp only [Option.map_some]
      by_cases hh : hsh = new_hash
      · by_cases ht : ts0 = ""
        · simp [ht]
        · exact absurd (hold k ts0 hsh hf hh ht) (by simp)
      · simp [hh]

theorem resolve_law1_truthy (id h : String)
    (db : List (String × String × String)) (now T : Int) (hT : T ≠ 0) :
    resolve_timestamp (.str id) h db now (some [(id, hashRec h T)]) = .int T := by
  apply resolve_primary_hit _ _ (.cons "hash" (.str h) (.cons "ts" (.int T) .nil))
  · simp [jlookup, hashRec, List.find?]
  · rfl
  · rfl
  · simp [truthy, hT]

theorem resolve_law2_cond (id h1 h2 : String)
    (db : List (String × String × String)) (now T : Int) (h12 : h1 ≠ h2)
    (hdb : ∀ k ts0 hsh, db.find? (fun r => Json.str r.1 = Json.str id) =
      some (k, ts0, hsh) → ¬(hsh = h2 ∧ ts0 ≠ "")) :
    resolve_timestamp (.str id) h2 db now (some [(id, hashRec h1 T)]) = .int now := by
  apply resolve_miss_now
  · intro kvs hk hhash t hts
    have hj : jlookup [(id, hashRec h1 T)] (.str id) = some (hashRec h1 T) := by
      simp [jlookup, List.find?]
    rw [hj] at hk
    simp only [Option.getD_some, hashRec] at hk
    cases hk
    simp only [JObj.toList, pyGet, List.find?] at hhash
    simp at hhash
    exact absurd hhash h12
  · intro k ts0 hsh hf hh ht
    exact hdb k ts0 hsh hf ⟨hh, ht⟩

/-- C1 — corrected.  `resolve_timestamp` follows the claimed precedence:
(1) a hash-store dict entry for the key whose `hash` equals the fresh hash
and whose `ts` is truthy wins; (2) otherwise a local-DB row whose stored hash
equals the fresh hash with a non-empty timestamp; (3) otherwise `now`.
The claim's first law needs `T` truthy (`T ≠ 0`): with `ts: 0` the resolver
falls through.  The claim's second law (`h1 ≠ h2` returns `now` *for every
db state*) additionally needs the DB row for the key not to carry hash `h2`
with a non-empty timestamp — otherwise precedence (2) returns the DB
timestamp. -/
theorem C1_resolve_timestamp_amended :
    (∀ (th : List (String × Json)) (key : Json) (kvs : JObj)
      (new_hash : String) (t : Json) (old_ts : List (String × String × String))
      (now : Int), jlookup th key = some (.obj kvs) →
      pyGet kvs.toList "hash" = some (.str new_hash) →
      pyGet kvs.toList "ts" = some t → truthy t = true →
      resolve_timestamp key new_hash old_ts now (some th) = t) ∧
    (∀ (th : List (String × Json)) (key : Json) (new_hash : String)
      (old_ts : List (String × String × String)) (now : Int) (k ts0 hsh : String),
      storeMiss th key new_hash →
      old_ts.find? (fun r => Json.str r.1 = key) = some (k, ts0, hsh) →
      hsh = new_hash → ts0 ≠ "" →
      resolve_timestamp key new_hash old_ts now (some th) = .str ts0) ∧
    (∀ (th : List (String × Json)) (key : Json) (new_hash : String)
      (old_ts : List (String × String × String)) (now : Int),
      storeMiss th key new_hash →
      (∀ k ts0 hsh, old_ts.find? (fun r => Json.str r.1 = key) =
        some (k, ts0, hsh) → hsh = new_hash → ts0 ≠ "" → False) →
      resolve_timestamp key new_hash old_ts now (some th) = .int now) ∧
    (∀ (id h : String) (db : List (String × String × String)) (now T : Int),
      T ≠ 0 →
      resolve_timestamp (.str id) h db now (some [(id, hashRec h T)]) = .int T) ∧
    (∀ (id h1 h2 : String) (db : List (String × String × String)) (now T : Int),
      h1 ≠ h2 →
      (∀ k ts0 hsh, db.find? (fun r => Json.str r.1 = Json.str id) =
        some (k, ts0, hsh) → ¬(hsh = h2 ∧ ts0 ≠ "")) →
      resolve_timestamp (.str id) h2 db now (some [(id, hashRec h1 T)]) = .int now) :=
  ⟨resolve_primary_hit, resolve_fallback_hit, resolve_miss_now,
   resolve_law1_truthy, resolve_law2_cond⟩

/-- C1 — counterexample to the claim as stated.  First conjunct: with
`ts: 0` (a perfectly legal stored integer timestamp) and `now = 5 ≠ 0 = T`,
the first law would demand the result `0`; the code returns `5`.  Second
conjunct: with a DB row for the key carrying the fresh hash `h2` and
timestamp `"7"`, the second law would demand `now = 5` "for every db state";
the code returns the DB timestamp `"7"`. -/
theorem C1_counterexample :
    resolve_timestamp (.str "id") "h" [] 5 (some [("id", hashRec "h" 0)]) =
      .int 5 ∧
    resolve_timestamp (.str "id") "h2" [("id", ("7", "h2"))] 5
      (some [("id", hashRec "h1" 3)]) = .str "7" := by
  constructor
  · decide
  · decide

/-- C1 — witness: the amended first law applied at a concrete input. -/
theorem C1_witness :
    resolve_timestamp (.str "k") "h" [] 9 (some [("k", hashRec "h" 4)]) =
      .int 4 :=
  C1_resolve_timestamp_amended.2.2.2.1 "k" "h" [] 9 4 (by decide)

theorem alookup_append {V : Type} (a b : List (String × V)) (k : String) :
    alookup (a ++ b) k =
      match alookup a k with
      | some v => some v
      | none => alookup b k := by
  induction a with
  | nil => simp [alookup]
  | cons hd tl ih =>
      by_cases hk : hd.1 = k
      · simp [alookup, List.find?, hk]
      · simp only [alookup, List.cons_append, List.find?] at ih ⊢
        simp only [show decide (hd.1 = k) = false by simpa using hk]
        exact ih

theorem alookup_map_patch {V : Type} (g : String × V → V)
    (l : List (String × V)) (k : String) :
    alookup (l.map (fun kv => (kv.1, g kv))) k =
      (l.find? (fun kv => kv.1 = k)).map g := by
  induction l with
  | nil => simp [alookup]
  | cons hd tl ih =>
      by_cases hk : hd.1 = k
      · simp [alookup, List.find?, hk]
      · simp only [alookup, List.map_cons, List.find?] at ih ⊢
        simp only [show decide (hd.1 = k) = false by simpa using hk]
        exact ih

theorem alookup_filter_none {V : Type} (p : String × V → Bool)
    (l : List (String × V)) (k : String) (h : alookup l k = none) :
    alookup (l.filter p) k = none := by
  induction l with
  | nil => simp [alookup]
  | cons hd tl ih =>
      by_cases hk : hd.1 = k
      · simp [alookup, List.find?, hk] at h
      · have htl : alookup tl k = none := by
          simp only [alookup, List.find?] at h
          simp only [show decide (hd.1 = k) = false by simpa using hk] at h
          exact h
        by_cases hp : p hd = true
        · simp only [alookup, List.filter_cons, hp, if_pos, List.find?]
          simp only [show decide (hd.1 = k) = false by simpa using hk]
          exact ih htl
        · simp only [List.filter_cons, hp]
          simp only [Bool.false_eq_true, if_false]
          exact ih htl

theorem setHashAux_mem (hs : List (String × List (Json × Json))) (cat : String)
    (k v : Json) :
    ∀ p ∈ setHashAux hs cat k v, p.1 = cat ∨ p ∈ hs := by
  induction hs with
  | nil =>
      intro p hp
      simp only [setHashAux, List.mem_singleton] at hp
      subst hp
      exact .inl rfl
  | cons hd tl ih =>
      obtain ⟨c, m⟩ := hd
      intro p hp
      simp only [setHashAux] at hp
      by_cases hc : c = cat
      · rw [if_pos hc] at hp
        rcases List.mem_cons.mp hp with rfl | hp
        · exact .inl hc
        · exact .inr (List.mem_cons_of_mem _ hp)
      · rw [if_neg hc] at hp
        rcases List.mem_cons.mp hp with rfl | hp
        · exact .inr (List.mem_cons_self _ _)
        · rcases ih p hp with h | h
          · exact .inl h
          · exact .inr (List.mem_cons_of_mem _ h)

theorem resourcesLoop_hashes_mem (table_hashes : List (String × Json))
    (old_ts : List (String × String × String)) (now : Int) :
    ∀ (l : List Entity) (st : St) (rid : Nat),
      ∀ p ∈ (resourcesLoop table_hashes old_ts now st rid l).1.1.hashes,
        p.1 = "resources" ∨ p ∈ st.hashes := by
  intro l
  induction l with
  | nil => intro st rid p hp; exact .inr hp
  | cons r rest ih =>
      intro st rid p hp
      simp only [resourcesLoop] at hp
      by_cases hn : truthy (pyGetD r "name" .null) = true
      · rw [if_pos hn] at hp
        cases hpi : pyInt (resolve_timestamp (pyReq r "name") (compute_hash r)
            old_ts now (some table_hashes)) with
        | error e => rw [hpi] at hp; exact .inr hp
        | ok n =>
            rw [hpi] at hp
            rcases ih _ _ p hp with h | h
            · exact .inl h
            · simp only [addStmt, setHash] at h
              rcases setHashAux_mem st.hashes "resources" _ _ p h with h2 | h2
              · exact .inl h2
              · exact .inr h2
      · rw [if_neg hn] at hp
        exact ih _ _ p hp

theorem rebuildInner_hashes (resource_ids : List (Json × Nat)) (cv : Json)
    (cid : Int) :
    ∀ (l : List (Json × Json)) (st : St) (rid rb : Nat),
      (rebuildInner resource_ids cv cid st rid rb l).1.1.hashes = st.hashes := by
  intro l
  induction l with
  | nil => intro st rid rb; rfl
  | cons hd rest ih =>
      obtain ⟨name, qv⟩ := hd
      intro st rid rb
      simp only [rebuildInner]
      by_cases hn : truthy name = true
      · rw [if_pos hn]
        cases hl : plookup resource_ids name with
        | none => rfl
        | some resId => rw [ih]; rfl
      · rw [if_neg hn]; exact ih st rid rb

theorem rebuildCodesLoop_hashes (resource_ids : List (Json × Nat))
    (code_ids : List (String × Int)) :
    ∀ (l : List Entity) (st : St) (rid rb : Nat),
      (rebuildCodesLoop resource_ids code_ids st rid rb l).1.1.hashes = st.hashes := by
  intro l
  induction l with
  | nil => intro st rid rb; rfl
  | cons c rest ih =>
      intro st rid rb
      simp only [rebuildCodesLoop]
      by_cases hc : truthy (pyGetD c "code" .null) = true
      · rw [if_pos hc]
        cases hid : ((code_ids.find? (fun kv => Json.str kv.1 = pyGetD c "code" .null)).map (·.2)) with
        | none => exact ih st rid rb
        | some cid =>
            dsimp only
            by_cases hz : cid ≠ 0
            · rw [if_pos hz]
              cases hbr : buildRewards c with
              | error e => rfl
              | ok rewards =>
                  dsimp only
                  cases hri : rebuildInner resource_ids (pyGetD c "code" .null) cid st rid rb rewards with
                  | mk res err =>
                      cases err with
                      | some e =>
                          have := rebuildInner_hashes resource_ids (pyGetD c "code" .null) cid rewards st rid rb
                          rw [hri] at this
                          exact this
                      | none =>
                          obtain ⟨st', rid', rb'⟩ := res
                          rw [ih]
                          have := rebuildInner_hashes resource_ids (pyGetD c "code" .null) cid rewards st rid rb
                          rw [hri] at this
                          exact this
            · rw [if_neg hz]; exact ih st rid rb
      · rw [if_neg hc]; exact ih st rid rb

/-- C7 — confirmed.  First conjunct: the end-of-run merge
`merged = {**stored_hashes, **new_hashes}` binds every key that the run did
not touch (absent from the new entries) to exactly its previously stored
value.  Second conjunct: a `--target resources` style run adds `new_hashes`
entries only under the `"resources"` category key, so every other category
is indeed absent from the new entries and survives the merge unchanged. -/
theorem C7_merge_preserves_untouched :
    (∀ (V : Type) (stored new : List (String × V)) (k : String),
      alookup new k = none →
      alookup (pyMergeDict stored new) k = alookup stored k) ∧
    (∀ (data : List Entity) (tables : List String)
      (resource_ids : List (Json × Nat)) (now : Int)
      (stored : List (String × Json)) (old_ts : List (String × String × String))
      (cols : List String) (cd : Option (List Entity))
      (rows : List (List (String × String))) (st0 : St),
      ∀ p ∈ (sync_resources data tables resource_ids now stored old_ts cols
        cd rows st0).1.hashes, p.1 = "resources" ∨ p ∈ st0.hashes) := by
  constructor
  · intro V stored new k h
    unfold pyMergeDict
    rw [alookup_append, alookup_map_patch (fun kv => (alookup new kv.1).getD kv.2)]
    cases hf : stored.find? (fun kv => kv.1 = k) with
    | none =>
        rw [alookup_filter_none _ _ _ h]
        unfold alookup
        rw [hf]
        rfl
    | some kv =>
        have hk : kv.1 = k := by simpa using List.find?_some hf
        show some ((alookup new kv.1).getD kv.2) = alookup stored k
        rw [hk, h]
        unfold alookup
        rw [hf]
        rfl
  · intro data tables resource_ids now stored old_ts cols cd rows st0 p hp
    unfold sync_resources at hp
    by_cases ht : "resources" ∈ tables
    · rw [if_pos ht] at hp
      dsimp only at hp
      set st2 := addStmt (addStmt (if "code_rewards" ∈ tables &&
          "resource_id" ∈ cols then
          addStmt (addStmt st0 "DELETE FROM code_rewards;")
            "ALTER TABLE code_rewards AUTO_INCREMENT = 1;"
        else st0) "DELETE FROM resources;")
        "ALTER TABLE resources AUTO_INCREMENT = 1;" with hst2
      have hst2h : st2.hashes = st0.hashes := by
        rw [hst2]
        by_cases hc : ("code_rewards" ∈ tables && "resource_id" ∈ cols) = true
        · simp [addStmt, hc]
        · simp only [addStmt]
          rw [if_neg hc]
      have hmain : ∀ q ∈ (resourcesLoop (tableHashesOf stored "resources")
          old_ts now st2 0 (pySorted resource_sort_key data)).1.1.hashes,
          q.1 = "resources" ∨ q ∈ st0.hashes := by
        intro q hq
        rcases resourcesLoop_hashes_mem _ _ _ _ _ _ q hq with h | h
        · exact .inl h
        · rw [hst2h] at h
          exact .inr h
      cases hloop : resourcesLoop (tableHashesOf stored "resources") old_ts now
          st2 0 (pySorted resource_sort_key data) with
      | mk res err =>
          obtain ⟨st3, rid⟩ := res
          have hst3 : ∀ q ∈ st3.hashes, q.1 = "resources" ∨ q ∈ st0.hashes := by
            intro q hq
            apply hmain
            rw [hloop]
            exact hq
          cases err with
          | some e => rw [hloop] at hp; exact hst3 p hp
          | none =>
              rw [hloop] at hp
              cases cd with
              | none => exact hst3 p hp
              | some cdl =>
                  dsimp only at hp
                  by_cases hcond : ("codes" ∈ tables && "code_rewards" ∈ tables &&
                      "resource_id" ∈ cols) = true
                  · rw [if_pos hcond] at hp
                    cases hids : buildCodeIds rows [] with
                    | error e => rw [hids] at hp; exact hst3 p hp
                    | ok code_ids =>
                        rw [hids] at hp
                        dsimp only at hp
                        rw [if_neg (by decide)] at hp
                        exact hst3 p hp
                  · rw [if_neg hcond] at hp
                    simp only [addPrint] at hp
                    exact hst3 p hp
    · rw [if_neg ht] at hp
      exact .inr hp

/-- C7 — witness: the merge lemma applied at a concrete store where the run
only touched `"resources"`; `"factions"` keeps its stored value. -/
theorem C7_witness :
    alookup (pyMergeDict [("factions", Json.int 1), ("codes", Json.int 2)]
      [("resources", Json.int 3)]) "factions" =
    alookup [("factions", Json.int 1), ("codes", Json.int 2)] "factions" :=
  C7_merge_preserves_untouched.1 Json
    [("factions", Json.int 1), ("codes", Json.int 2)]
    [("resources", Json.int 3)] "factions" (by decide)

/-- The legacy-column drop statement of the code_rewards backfill. -/
def resourceNameDrop : DbAction :=
  .exec "ALTER TABLE code_rewards DROP COLUMN resource_name;"

/-- C9 — corrected (for the `code_rewards.resource_name` path, which the
claim describes accurately).  Whenever the ensurer's backfill slice emits the
destructive `DROP COLUMN resource_name`, the unresolved-row count query ran,
returned zero, and strictly precedes the drop in the action trace; and
whenever any row is unresolved (count nonzero), the drop is not emitted and
the "Keeping code_rewards.resource_name" warning is printed instead. -/
theorem C9_gated_drop_amended :
    (∀ (cols : List String) (rows : List (List (String × String))),
      resourceNameDrop ∈ (ensureCodeRewardsLegacy cols rows).1 →
      unresolvedCountOf rows = .ok 0 ∧
      ∃ i j : Nat, i < j ∧
        (ensureCodeRewardsLegacy cols rows).1.get? i =
          some (.query unresolvedCountQuery) ∧
        (ensureCodeRewardsLegacy cols rows).1.get? j = some resourceNameDrop) ∧
    (∀ (cols : List String) (rows : List (List (String × String))) (cnt : Int),
      unresolvedCountOf rows = .ok cnt → cnt ≠ 0 →
      resourceNameDrop ∉ (ensureCodeRewardsLegacy cols rows).1 ∧
      ("resource_name" ∈ cols →
        DbAction.note ("  Keeping code_rewards.resource_name (could not map " ++
          toString cnt ++ " row(s) to resources.id)") ∈
          (ensureCodeRewardsLegacy cols rows).1)) := by
  constructor
  · intro cols rows hmem
    unfold ensureCodeRewardsLegacy at hmem ⊢
    by_cases hc : "resource_name" ∈ cols
    · rw [if_pos hc] at hmem ⊢
      revert hmem
      cases hu : unresolvedCountOf rows with
      | error e =>
          intro hmem
          dsimp only at hmem
          exact absurd hmem (by decide)
      | ok cnt =>
          intro hmem
          dsimp only at hmem ⊢
          by_cases hz : cnt = 0
          · rw [if_pos hz] at hmem ⊢
            subst hz
            exact ⟨rfl, 2, 4, by omega, rfl, rfl⟩
          · rw [if_neg hz] at hmem
            rcases List.mem_append.mp hmem with hm | hm
            · exact absurd hm (by decide)
            · simp [resourceNameDrop] at hm
    · rw [if_neg hc] at hmem
      simp at hmem
  · intro cols rows cnt hu hz
    unfold ensureCodeRewardsLegacy
    by_cases hc : "resource_name" ∈ cols
    · rw [if_pos hc, hu]
      dsimp only
      rw [if_neg hz]
      constructor
      · intro hmem
        rcases List.mem_append.mp hmem with hm | hm
        · exact absurd hm (by decide)
        · simp [resourceNameDrop] at hm
      · intro _
        simp
    · rw [if_neg hc]
      constructor
      · simp
      · intro hcc
        exact absurd hcc hc

/-- C9 — counterexample to "every destructive drop is gated on a verifying
query": the howlkins legacy-column slice drops `passive_effect`
unconditionally, with no query in its trace at all. -/
theorem C9_counterexample :
    DbAction.exec "ALTER TABLE howlkins DROP COLUMN passive_effect;" ∈
      ensureHowlkinsLegacy ["id", "name", "passive_effect"] ∧
    ∀ s : String, DbAction.query s ∉
      ensureHowlkinsLegacy ["id", "name", "passive_effect"] := by
  constructor
  · decide
  · intro s
    simp [ensureHowlkinsLegacy, List.flatMap]

/-- C9 — witness: the gating theorem applied at a schema state whose
verification query reports one unresolved row — the column is kept and the
warning is printed. -/
theorem C9_witness :
    resourceNameDrop ∉
      (ensureCodeRewardsLegacy ["resource_name"] [[("cnt", "1")]]).1 ∧
    DbAction.note ("  Keeping code_rewards.resource_name (could not map " ++
      toString (1 : Int) ++ " row(s) to resources.id)") ∈
      (ensureCodeRewardsLegacy ["resource_name"] [[("cnt", "1")]]).1 := by
  have h := C9_gated_drop_amended.2 ["resource_name"] [[("cnt", "1")]] 1
    (by decide) (by decide)
  exact ⟨h.1, h.2 (by decide)⟩

/-- A character fixed by the left operand of a string append stays fixed. -/
theorem str_data_get_append (s t : String) (i : Nat) (c : Char)
    (h : s.data[i]? = some c) : (s ++ t).data[i]? = some c := by
  have hl : i < s.data.length := (List.getElem?_eq_some.mp h).1
  rw [String.data_append, List.getElem?_append, if_pos hl]
  exact h

/-- Two strings differing at one character position are distinct. -/
theorem ne_of_data_get (s t : String) (i : Nat) (c d : Char)
    (hc : s.data[i]? = some c) (hd : t.data[i]? = some d) (hne : c ≠ d) :
    s ≠ t := by
  intro he
  rw [he, hd] at hc
  exact hne (Option.some.inj hc).symm

theorem codeRewardInsert_data0 (rid : Nat) (cid : Int) (resId : Nat) (qv : Json) :
    (codeRewardInsert rid cid resId qv).data[0]? = some (Char.ofNat 73) := by
  unfold codeRewardInsert
  repeat apply str_data_get_append
  decide

theorem codeRewardInsert_data12 (rid : Nat) (cid : Int) (resId : Nat) (qv : Json) :
    (codeRewardInsert rid cid resId qv).data[12]? = some (Char.ofNat 99) := by
  unfold codeRewardInsert
  repeat apply str_data_get_append
  decide

theorem resourceInsert_data12 (i : Nat) (r : Entity) (ts : Json) (h : String) :
    (resourceInsert i r ts h).data[12]? = some (Char.ofNat 114) := by
  unfold resourceInsert
  repeat apply str_data_get_append
  decide

/-- No `code_rewards` child-row INSERT is one of the resource pass's own
statements: the fixed DELETE/ALTER preamble differs at the first character,
a parent-row resources INSERT differs at position 12. -/
theorem codeRewardInsert_ne_resources (rid : Nat) (cid : Int) (resId : Nat)
    (qv : Json) :
    codeRewardInsert rid cid resId qv ≠ "DELETE FROM code_rewards;" ∧
    codeRewardInsert rid cid resId qv ≠ "ALTER TABLE code_rewards AUTO_INCREMENT = 1;" ∧
    codeRewardInsert rid cid resId qv ≠ "DELETE FROM resources;" ∧
    codeRewardInsert rid cid resId qv ≠ "ALTER TABLE resources AUTO_INCREMENT = 1;" ∧
    ∀ (i : Nat) (r : Entity) (ts : Json) (h : String),
      codeRewardInsert rid cid resId qv ≠ resourceInsert i r ts h := by
  refine ⟨?_, ?_, ?_, ?_, ?_⟩
  · exact ne_of_data_get _ _ 0 (Char.ofNat 73) (Char.ofNat 68)
      (codeRewardInsert_data0 rid cid resId qv) (by decide) (by decide)
  · exact ne_of_data_get _ _ 0 (Char.ofNat 73) (Char.ofNat 65)
      (codeRewardInsert_data0 rid cid resId qv) (by decide) (by decide)
  · exact ne_of_data_get _ _ 0 (Char.ofNat 73) (Char.ofNat 68)
      (codeRewardInsert_data0 rid cid resId qv) (by decide) (by decide)
  · exact ne_of_data_get _ _ 0 (Char.ofNat 73) (Char.ofNat 65)
      (codeRewardInsert_data0 rid cid resId qv) (by decide) (by decide)
  · intro i r ts h
    exact ne_of_data_get _ _ 12 (Char.ofNat 99) (Char.ofNat 114)
      (codeRewardInsert_data12 rid cid resId qv)
      (resourceInsert_data12 i r ts h) (by decide)

/-- Every statement accumulated by the `sync_resources` entity loop is either
inherited from the starting state or a parent-row resources INSERT. -/
theorem resourcesLoop_stmts_shape (table_hashes : List (String × Json))
    (old_ts : List (String × String × String)) (now : Int) :
    ∀ (l : List Entity) (st : St) (rid : Nat),
      ∀ s ∈ (resourcesLoop table_hashes old_ts now st rid l).1.1.stmts,
        s ∈ st.stmts ∨ ∃ (i : Nat) (r : Entity) (ts : Json) (h : String),
          s = resourceInsert i r ts h := by
  intro l
  induction l with
  | nil => intro st rid s hs; exact .inl hs
  | cons r rest ih =>
      intro st rid s hs
      simp only [resourcesLoop] at hs
      by_cases hn : truthy (pyGetD r "name" .null) = true
      · rw [if_pos hn] at hs
        cases hpi : pyInt (resolve_timestamp (pyReq r "name") (compute_hash r)
            old_ts now (some table_hashes)) with
        | error e => rw [hpi] at hs; exact .inl hs
        | ok n =>
            rw [hpi] at hs
            rcases ih _ _ s hs with h | h
            · simp only [addStmt, setHash, List.mem_append, List.mem_singleton] at h
              rcases h with h | h
              · exact .inl h
              · exact .inr ⟨rid + 1, r, _, _, h⟩
            · exact .inr h
      · rw [if_neg hn] at hs
        exact ih _ _ s hs

/-- When every stored timestamp the loop consults is numeric, the
`sync_resources` entity loop completes without raising. -/
theorem resourcesLoop_ok_no_err (table_hashes : List (String × Json))
    (old_ts : List (String × String × String)) (now : Int) :
    ∀ (l : List Entity) (st : St) (rid : Nat),
      resLoopOk table_hashes old_ts now l = true →
      (resourcesLoop table_hashes old_ts now st rid l).2 = none := by
  intro l
  induction l with
  | nil => intro st rid _; rfl
  | cons r rest ih =>
      intro st rid hok
      simp only [resLoopOk] at hok
      simp only [resourcesLoop]
      by_cases hn : truthy (pyGetD r "name" .null) = true
      · rw [if_pos hn] at hok ⊢
        cases hpi : pyInt (resolve_timestamp (pyReq r "name") (compute_hash r)
            old_ts now (some table_hashes)) with
        | error e => rw [hpi] at hok; simp at hok
        | ok n => rw [hpi] at hok; exact ih _ _ hok
      · rw [if_neg hn] at hok ⊢
        exact ih _ _ hok

/-- C10 — confirmed.  A `sync_resources` run given `codes_data` (as every
`--target resources` run is) against a live schema containing the `codes`
and `code_rewards` tables with a `resource_id` column reaches the
`sorted(codes_data, key=code_sort_key)` call; `code_sort_key` is not among
the names imported into the module namespace, so the run raises `NameError`
there, after the resources pass but before any `code_rewards` INSERT is
emitted, and the batch is never flushed (nothing is committed). -/
theorem C10_code_sort_key_name_error
    (data : List Entity) (existing_tables : List String)
    (resource_ids : List (Json × Nat)) (now : Int)
    (stored_hashes : List (String × Json))
    (old_ts : List (String × String × String))
    (codeRewardCols : List String) (cd : List Entity)
    (codeRows : List (List (String × String))) (st0 : St)
    (code_ids : List (String × Int))
    (hres : "resources" ∈ existing_tables)
    (hcodes : "codes" ∈ existing_tables)
    (hcr : "code_rewards" ∈ existing_tables)
    (hrid : "resource_id" ∈ codeRewardCols)
    (hok : resLoopOk (tableHashesOf stored_hashes "resources") old_ts now
      (pySorted resource_sort_key data) = true)
    (hids : buildCodeIds codeRows [] = .ok code_ids)
    (hst0 : ∀ (rid : Nat) (cid : Int) (resId : Nat) (qv : Json),
      codeRewardInsert rid cid resId qv ∉ st0.stmts) :
    (sync_resources data existing_tables resource_ids now stored_hashes old_ts
        codeRewardCols (some cd) codeRows st0).2 =
      some (.nameError "code_sort_key") ∧
    (∀ (rid : Nat) (cid : Int) (resId : Nat) (qv : Json),
      codeRewardInsert rid cid resId qv ∉
        (sync_resources data existing_tables resource_ids now stored_hashes
          old_ts codeRewardCols (some cd) codeRows st0).1.stmts) ∧
    runCommit (sync_resources data existing_tables resource_ids now
      stored_hashes old_ts codeRewardCols (some cd) codeRows st0) = none := by
  unfold sync_resources
  rw [if_pos hres]
  dsimp only
  rw [if_pos (show (decide ("code_rewards" ∈ existing_tables) &&
      decide ("resource_id" ∈ codeRewardCols)) = true by simp [hcr, hrid])]
  have hnone := resourcesLoop_ok_no_err (tableHashesOf stored_hashes "resources")
    old_ts now (pySorted resource_sort_key data)
    (addStmt (addStmt (addStmt (addStmt st0 "DELETE FROM code_rewards;")
      "ALTER TABLE code_rewards AUTO_INCREMENT = 1;") "DELETE FROM resources;")
      "ALTER TABLE resources AUTO_INCREMENT = 1;") 0 hok
  have hshape := resourcesLoop_stmts_shape (tableHashesOf stored_hashes "resources")
    old_ts now (pySorted resource_sort_key data)
    (addStmt (addStmt (addStmt (addStmt st0 "DELETE FROM code_rewards;")
      "ALTER TABLE code_rewards AUTO_INCREMENT = 1;") "DELETE FROM resources;")
      "ALTER TABLE resources AUTO_INCREMENT = 1;") 0
  cases hrl : resourcesLoop (tableHashesOf stored_hashes "resources") old_ts now
      (addStmt (addStmt (addStmt (addStmt st0 "DELETE FROM code_rewards;")
        "ALTER TABLE code_rewards AUTO_INCREMENT = 1;") "DELETE FROM resources;")
        "ALTER TABLE resources AUTO_INCREMENT = 1;") 0
      (pySorted resource_sort_key data) with
  | mk fst err =>
      rw [hrl] at hnone hshape
      cases fst with
      | mk st3 r_id =>
          subst hnone
          dsimp only
          rw [if_pos (show (decide ("codes" ∈ existing_tables) &&
              decide ("code_rewards" ∈ existing_tables) &&
              decide ("resource_id" ∈ codeRewardCols)) = true
            by simp [hcodes, hcr, hrid])]
          rw [hids]
          dsimp only
          rw [if_neg (show ¬ ("code_sort_key" ∈ syncDoltGlobals) by decide)]
          refine ⟨rfl, ?_, rfl⟩
          intro rid cid resId qv hmem
          rcases hshape _ hmem with hin | ⟨i, r, ts, h, he⟩
          · simp only [addStmt, List.append_assoc, List.mem_append,
              List.mem_singleton] at hin
            rcases hin with hin | hin | hin | hin | hin
            · exact hst0 rid cid resId qv hin
            · exact (codeRewardInsert_ne_resources rid cid resId qv).1 hin
            · exact (codeRewardInsert_ne_resources rid cid resId qv).2.1 hin
            · exact (codeRewardInsert_ne_resources rid cid resId qv).2.2.1 hin
            · exact (codeRewardInsert_ne_resources rid cid resId qv).2.2.2.1 hin
          · exact (codeRewardInsert_ne_resources rid cid resId qv).2.2.2.2
              i r ts h he

/-- C10 — witness: a concrete `--target resources`-shaped run (full schema,
`codes_data` present) ends in the `code_sort_key` `NameError` and commits
nothing. -/
theorem C10_witness :
    (sync_resources [[("name", Json.str "Gold")]]
        ["resources", "codes", "code_rewards"] [] 0 [] [] ["resource_id"]
        (some []) [] emptySt).2 = some (.nameError "code_sort_key") ∧
    runCommit (sync_resources [[("name", Json.str "Gold")]]
      ["resources", "codes", "code_rewards"] [] 0 [] [] ["resource_id"]
      (some []) [] emptySt) = none := by
  have h := C10_code_sort_key_name_error [[("name", Json.str "Gold")]]
    ["resources", "codes", "code_rewards"] [] 0 [] [] ["resource_id"] [] []
    emptySt [] (by decide) (by decide) (by decide) (by decide) (by decide)
    (by decide) (fun rid cid resId qv hmem => by simp [emptySt] at hmem)
  exact ⟨h.1, h.2.2⟩

/-- A `sync_codes` reward loop that finishes without raising resolved every
truthy reward name against the resource-id map. -/
theorem codesRewardLoop_none_resolved (resource_ids : List (Json × Nat))
    (has_rid : Bool) (cid : Nat) (code_value : Json) :
    ∀ (rewards : List (Json × Json)) (st : St) (rid : Nat),
      (codesRewardLoop resource_ids has_rid cid code_value st rid rewards).2 =
        none →
      ∀ nq ∈ rewards, truthy nq.1 = true → plookup resource_ids nq.1 ≠ none := by
  intro rewards
  induction rewards with
  | nil => intro st rid _ nq hnq; exact absurd hnq (List.not_mem_nil nq)
  | cons hd rest ih =>
      intro st rid hnone nq hnq htr
      simp only [codesRewardLoop] at hnone
      rcases List.mem_cons.mp hnq with he | hmem
      · subst he
        rw [if_pos htr] at hnone
        intro hlk
        rw [hlk] at hnone
        simp at hnone
      · by_cases ht : truthy hd.1 = true
        · rw [if_pos ht] at hnone
          cases hlk : plookup resource_ids hd.1 with
          | none => rw [hlk] at hnone; simp at hnone
          | some resId =>
              rw [hlk] at hnone
              cases has_rid with
              | false => simp at hnone
              | true => exact ih _ _ hnone nq hmem htr
        · rw [if_neg ht] at hnone
          exact ih _ _ hnone nq hmem htr

/-- A `sync_codes` entity loop (with the `code_rewards` table present) that
finishes without raising resolved every truthy reward name of every truthy
code entity. -/
theorem codesLoop_none_resolved (resource_ids : List (Json × Nat))
    (table_hashes : List (String × Json))
    (old_ts : List (String × String × String)) (now : Int) (has_rid : Bool) :
    ∀ (l : List Entity) (st : St) (cid rid : Nat),
      (codesLoop resource_ids table_hashes old_ts now true has_rid
          st cid rid l).2 = none →
      ∀ c ∈ l, truthy (pyGetD c "code" .null) = true →
      ∀ rewards, buildRewards c = .ok rewards →
      ∀ nq ∈ rewards, truthy nq.1 = true → plookup resource_ids nq.1 ≠ none := by
  intro l
  induction l with
  | nil => intro st cid rid _ c hc; exact absurd hc (List.not_mem_nil c)
  | cons e rest ih =>
      intro st cid rid hnone c hc htc rewards hbr nq hnq htr
      simp only [codesLoop] at hnone
      rcases List.mem_cons.mp hc with he | hmem
      · subst he
        rw [if_pos htc, hbr] at hnone
        cases hpi : pyInt (resolve_timestamp (pyReq c "code") (compute_hash c)
            old_ts now (some table_hashes)) with
        | error er => rw [hpi] at hnone; simp at hnone
        | ok n =>
            rw [hpi] at hnone
            simp only [if_pos rfl] at hnone
            cases hrl : codesRewardLoop resource_ids has_rid (cid + 1)
                (pyReq c "code")
                (addStmt (setHash st "codes" (pyReq c "code")
                  (hashRec (compute_hash c) n))
                  (codeInsert (cid + 1) c
                    (resolve_timestamp (pyReq c "code") (compute_hash c)
                      old_ts now (some table_hashes)) (compute_hash c)))
                rid rewards with
            | mk fst errR =>
                cases errR with
                | some er => rw [hrl] at hnone; simp at hnone
                | none =>
                    exact codesRewardLoop_none_resolved resource_ids has_rid
                      (cid + 1) (pyReq c "code") rewards _ rid
                      (by rw [hrl]) nq hnq htr
      · by_cases hte : truthy (pyGetD e "code" .null) = true
        · rw [if_pos hte] at hnone
          cases hbre : buildRewards e with
          | error er => rw [hbre] at hnone; simp at hnone
          | ok rewardsE =>
              rw [hbre] at hnone
              cases hpi : pyInt (resolve_timestamp (pyReq e "code")
                  (compute_hash e) old_ts now (some table_hashes)) with
              | error er => rw [hpi] at hnone; simp at hnone
              | ok n =>
                  rw [hpi] at hnone
                  simp only [if_pos rfl] at hnone
                  cases hrl : codesRewardLoop resource_ids has_rid (cid + 1)
                      (pyReq e "code")
                      (addStmt (setHash st "codes" (pyReq e "code")
                        (hashRec (compute_hash e) n))
                        (codeInsert (cid + 1) e
                          (resolve_timestamp (pyReq e "code") (compute_hash e)
                            old_ts now (some table_hashes)) (compute_hash e)))
                      rid rewardsE with
                  | mk fstE errR =>
                      cases fstE with
                      | mk stE ridE =>
                          cases errR with
                          | some er => rw [hrl] at hnone; simp at hnone
                          | none =>
                              rw [hrl] at hnone
                              exact ih _ _ _ hnone c hmem htc rewards hbr
                                nq hnq htr
        · rw [if_neg hte] at hnone
          exact ih _ _ _ hnone c hmem htc rewards hbr nq hnq htr

/-- C4 — amended.  (1) A *truthy* reward name that is absent from the
resource-id map raises exactly `SyncError "code ... reward resource ... not
found in resources.json"` at the moment it is processed, and no statement is
emitted for it.  (2) Whenever a `sync_codes` run over a schema containing
`codes` and `code_rewards` finishes without raising, every truthy reward
name of every truthy code entity was resolved — so an unresolved truthy
reward always aborts the run.  (3) An aborted run flushes nothing: no rows
of any category are committed. -/
theorem C4_unknown_reward_fatal_amended :
    (∀ (resource_ids : List (Json × Nat)) (has_rid : Bool) (cid : Nat)
        (code_value name qv : Json) (rest : List (Json × Json)) (st : St)
        (rid : Nat),
      truthy name = true → plookup resource_ids name = none →
      (codesRewardLoop resource_ids has_rid cid code_value st rid
          ((name, qv) :: rest)).2 =
        some (.syncError (codeRewardErrMsg code_value name)) ∧
      (codesRewardLoop resource_ids has_rid cid code_value st rid
          ((name, qv) :: rest)).1.1 = st) ∧
    (∀ (data : List Entity) (existing_tables : List String)
        (resource_ids : List (Json × Nat)) (now : Int)
        (stored_hashes : List (String × Json))
        (old_ts : List (String × String × String))
        (codeRewardCols : List String) (st0 : St),
      "codes" ∈ existing_tables → "code_rewards" ∈ existing_tables →
      (sync_codes data existing_tables resource_ids now stored_hashes old_ts
          codeRewardCols st0).2 = none →
      ∀ c ∈ data, truthy (pyGetD c "code" .null) = true →
      ∀ rewards, buildRewards c = .ok rewards →
      ∀ nq ∈ rewards, truthy nq.1 = true →
        plookup resource_ids nq.1 ≠ none) ∧
    (∀ res : St × Option PyErr, res.2 ≠ none → runCommit res = none) := by
  refine ⟨?_, ?_, ?_⟩
  · intro resource_ids has_rid cid code_value name qv rest st rid ht hlk
    simp only [codesRewardLoop]
    rw [if_pos ht, hlk]
    exact ⟨rfl, rfl⟩
  · intro data existing_tables resource_ids now stored_hashes old_ts
      codeRewardCols st0 hcodes hcr hnone
    unfold sync_codes at hnone
    rw [if_pos hcodes] at hnone
    dsimp only at hnone
    rw [show decide ("code_rewards" ∈ existing_tables) = true
      by simp [hcr]] at hnone
    rw [if_pos hcr] at hnone
    cases hcl : codesLoop resource_ids (tableHashesOf stored_hashes "codes")
        old_ts now true
        (true && decide ("resource_id" ∈ codeRewardCols))
        (addStmt (addStmt (addStmt (addStmt st0 "DELETE FROM code_rewards;")
          "ALTER TABLE code_rewards AUTO_INCREMENT = 1;") "DELETE FROM codes;")
          "ALTER TABLE codes AUTO_INCREMENT = 1;") 0 0 data with
    | mk fst err =>
        cases fst with
        | mk st3 p =>
            cases p with
            | mk c_id reward_id =>
                cases err with
                | some er => rw [hcl] at hnone; simp at hnone
                | none =>
                    exact codesLoop_none_resolved resource_ids
                      (tableHashesOf stored_hashes "codes") old_ts now
                      (true && decide ("resource_id" ∈ codeRewardCols))
                      data _ 0 0 (by rw [hcl])
  · intro res hres
    unfold runCommit
    cases hr : res.2 with
    | some er => rfl
    | none => exact absurd hr hres

/-- C4 — counterexample to the unqualified claim: a code whose rewards map
holds the *empty* resource name, absent from an empty resource-id map, is
not fatal — the name is falsy, the reward is silently skipped, the run
succeeds and commits its batch. -/
theorem C4_counterexample :
    buildRewards [("code", Json.str "ABC"),
        ("rewards", Json.obj (JObj.cons "" (Json.int 5) JObj.nil))] =
      .ok [(Json.str "", Json.int 5)] ∧
    plookup ([] : List (Json × Nat)) (Json.str "") = none ∧
    (sync_codes [[("code", Json.str "ABC"),
        ("rewards", Json.obj (JObj.cons "" (Json.int 5) JObj.nil))]]
      ["codes", "code_rewards"] [] 0 [] [] ["resource_id"] emptySt).2 = none ∧
    (runCommit (sync_codes [[("code", Json.str "ABC"),
        ("rewards", Json.obj (JObj.cons "" (Json.int 5) JObj.nil))]]
      ["codes", "code_rewards"] [] 0 [] [] ["resource_id"] emptySt)).isSome =
      true := by
  refine ⟨by decide, by decide, by decide, by decide⟩

/-- C4 — witness: the amended theorem applied at the spec's own example, a
reward naming `Unobtainium` against a resource map without it — the reward
loop raises the descriptive `SyncError` and emits nothing. -/
theorem C4_witness :
    (codesRewardLoop [(Json.str "Gold", 1)] true 1 (Json.str "ABC") emptySt 0
        [(Json.str "Unobtainium", Json.int 3)]).2 =
      some (.syncError (codeRewardErrMsg (Json.str "ABC")
        (Json.str "Unobtainium"))) ∧
    (codesRewardLoop [(Json.str "Gold", 1)] true 1 (Json.str "ABC") emptySt 0
        [(Json.str "Unobtainium", Json.int 3)]).1.1 = emptySt :=
  C4_unknown_reward_fatal_amended.1 [(Json.str "Gold", 1)] true 1
    (Json.str "ABC") (Json.str "Unobtainium") (Json.int 3) [] emptySt 0
    (by decide) (by decide)

/-- The `sync_resources` entity loop appends exactly the sequential-id
parent-row INSERTs of its (already sorted) input to the statement batch. -/
theorem resourcesLoop_emits (th : List (String × Json))
    (ots : List (String × String × String)) (now : Int) :
    ∀ (l : List Entity) (st : St) (rid : Nat),
      resLoopOk th ots now l = true →
      (resourcesLoop th ots now st rid l).1.1.stmts =
        st.stmts ++ resInsertsFrom th ots now rid l := by
  intro l
  induction l with
  | nil => intro st rid _; simp [resourcesLoop, resInsertsFrom]
  | cons r rest ih =>
      intro st rid hok
      simp only [resLoopOk] at hok
      simp only [resourcesLoop, resInsertsFrom]
      by_cases hn : truthy (pyGetD r "name" .null) = true
      · rw [if_pos hn] at hok
        rw [if_pos hn, if_pos hn]
        cases hpi : pyInt (resolve_timestamp (pyReq r "name") (compute_hash r)
            ots now (some th)) with
        | error e => rw [hpi] at hok; simp at hok
        | ok n =>
            rw [hpi] at hok
            rw [ih _ _ hok]
            simp [addStmt, setHash]
      · rw [if_neg hn] at hok
        rw [if_neg hn, if_neg hn]
        exact ih _ _ hok

/-- With no `code_rewards` table, the `sync_codes` entity loop appends
exactly the sequential-id parent-row INSERTs of its input, in input order,
and raises nothing. -/
theorem codesLoop_emits_unsorted (resource_ids : List (Json × Nat))
    (th : List (String × Json)) (ots : List (String × String × String))
    (now : Int) (has_rid : Bool) :
    ∀ (l : List Entity) (st : St) (cid rid : Nat),
      codesLoopOk th ots now l = true →
      (codesLoop resource_ids th ots now false has_rid st cid rid l).1.1.stmts =
        st.stmts ++ codeInsertsFrom th ots now cid l ∧
      (codesLoop resource_ids th ots now false has_rid st cid rid l).2 = none := by
  intro l
  induction l with
  | nil => intro st cid rid _; exact ⟨by simp [codesLoop, codeInsertsFrom], rfl⟩
  | cons c rest ih =>
      intro st cid rid hok
      simp only [codesLoopOk] at hok
      simp only [codesLoop, codeInsertsFrom]
      by_cases htc : truthy (pyGetD c "code" .null) = true
      · rw [if_pos htc] at hok
        rw [if_pos htc, if_pos htc]
        cases hbr : buildRewards c with
        | error e => rw [hbr] at hok; simp at hok
        | ok rewards =>
            rw [hbr] at hok
            cases hpi : pyInt (resolve_timestamp (pyReq c "code")
                (compute_hash c) ots now (some th)) with
            | error e => rw [hpi] at hok; simp at hok
            | ok n =>
                rw [hpi] at hok
                simp only [Bool.false_eq_true, if_false]
                refine ⟨?_, (ih _ _ _ hok).2⟩
                rw [(ih _ _ _ hok).1]
                simp [addStmt, setHash]
      · rw [if_neg htc] at hok
        rw [if_neg htc, if_neg htc]
        exact ih _ _ _ hok

/-- C2 — amended.  (1) `sync_resources` emits its parent-row INSERTs in
canonical `resource_sort_key` order with sequential ids from 1, after its
fixed DELETE/ALTER preamble; (2) that order is total — the sorted list is
pairwise ordered under the sort key; (3) but the guarantee is not uniform
over categories: `sync_codes` never sorts, emitting its parent rows in raw
input-array order (ids still sequential from 1). -/
theorem C2_parent_order_amended :
    (∀ (data : List Entity) (existing_tables : List String)
        (resource_ids : List (Json × Nat)) (now : Int)
        (stored_hashes : List (String × Json))
        (old_ts : List (String × String × String))
        (codeRewardCols : List String) (st0 : St),
      "resources" ∈ existing_tables →
      resLoopOk (tableHashesOf stored_hashes "resources") old_ts now
        (pySorted resource_sort_key data) = true →
      (sync_resources data existing_tables resource_ids now stored_hashes
          old_ts codeRewardCols none [] st0).1.stmts =
        (if "code_rewards" ∈ existing_tables &&
            "resource_id" ∈ codeRewardCols then
          st0.stmts ++ ["DELETE FROM code_rewards;",
            "ALTER TABLE code_rewards AUTO_INCREMENT = 1;"]
         else st0.stmts) ++
        ["DELETE FROM resources;", "ALTER TABLE resources AUTO_INCREMENT = 1;"] ++
        resInsertsFrom (tableHashesOf stored_hashes "resources") old_ts now 0
          (pySorted resource_sort_key data)) ∧
    (∀ data : List Entity, (pySorted resource_sort_key data).Pairwise
      (fun x y => lexLeB (resource_sort_key x) (resource_sort_key y) = true)) ∧
    (∀ (data : List Entity) (existing_tables : List String)
        (resource_ids : List (Json × Nat)) (now : Int)
        (stored_hashes : List (String × Json))
        (old_ts : List (String × String × String))
        (codeRewardCols : List String) (st0 : St),
      "codes" ∈ existing_tables → "code_rewards" ∉ existing_tables →
      codesLoopOk (tableHashesOf stored_hashes "codes") old_ts now data = true →
      (sync_codes data existing_tables resource_ids now stored_hashes old_ts
          codeRewardCols st0).1.stmts =
        st0.stmts ++
        ["DELETE FROM codes;", "ALTER TABLE codes AUTO_INCREMENT = 1;"] ++
        codeInsertsFrom (tableHashesOf stored_hashes "codes") old_ts now 0
          data) := by
  refine ⟨?_, ?_, ?_⟩
  · intro data existing_tables resource_ids now stored_hashes old_ts
      codeRewardCols st0 hres hok
    unfold sync_resources
    rw [if_pos hres]
    dsimp only
    by_cases hb : (decide ("code_rewards" ∈ existing_tables) &&
        decide ("resource_id" ∈ codeRewardCols)) = true
    · rw [if_pos hb, if_pos hb]
      have hnone := resourcesLoop_ok_no_err
        (tableHashesOf stored_hashes "resources") old_ts now
        (pySorted resource_sort_key data)
        (addStmt (addStmt (addStmt (addStmt st0 "DELETE FROM code_rewards;")
          "ALTER TABLE code_rewards AUTO_INCREMENT = 1;")
          "DELETE FROM resources;") "ALTER TABLE resources AUTO_INCREMENT = 1;")
        0 hok
      have hem := resourcesLoop_emits
        (tableHashesOf stored_hashes "resources") old_ts now
        (pySorted resource_sort_key data)
        (addStmt (addStmt (addStmt (addStmt st0 "DELETE FROM code_rewards;")
          "ALTER TABLE code_rewards AUTO_INCREMENT = 1;")
          "DELETE FROM resources;") "ALTER TABLE resources AUTO_INCREMENT = 1;")
        0 hok
      cases hrl : resourcesLoop (tableHashesOf stored_hashes "resources")
          old_ts now
          (addStmt (addStmt (addStmt (addStmt st0 "DELETE FROM code_rewards;")
            "ALTER TABLE code_rewards AUTO_INCREMENT = 1;")
            "DELETE FROM resources;")
            "ALTER TABLE resources AUTO_INCREMENT = 1;") 0
          (pySorted resource_sort_key data) with
      | mk fst err =>
          rw [hrl] at hnone hem
          cases fst with
          | mk st3 r_id =>
              subst hnone
              dsimp only [addPrint]
              dsimp only at hem
              rw [hem]
              simp [addStmt, List.append_assoc]
    · rw [if_neg hb, if_neg hb]
      have hnone := resourcesLoop_ok_no_err
        (tableHashesOf stored_hashes "resources") old_ts now
        (pySorted resource_sort_key data)
        (addStmt (addStmt st0 "DELETE FROM resources;")
          "ALTER TABLE resources AUTO_INCREMENT = 1;") 0 hok
      have hem := resourcesLoop_emits
        (tableHashesOf stored_hashes "resources") old_ts now
        (pySorted resource_sort_key data)
        (addStmt (addStmt st0 "DELETE FROM resources;")
          "ALTER TABLE resources AUTO_INCREMENT = 1;") 0 hok
      cases hrl : resourcesLoop (tableHashesOf stored_hashes "resources")
          old_ts now
          (addStmt (addStmt st0 "DELETE FROM resources;")
            "ALTER TABLE resources AUTO_INCREMENT = 1;") 0
          (pySorted resource_sort_key data) with
      | mk fst err =>
          rw [hrl] at hnone hem
          cases fst with
          | mk st3 r_id =>
              subst hnone
              dsimp only [addPrint]
              dsimp only at hem
              rw [hem]
              simp [addStmt, List.append_assoc]
  · intro data
    exact pairwise_pySorted resource_sort_key data
  · intro data existing_tables resource_ids now stored_hashes old_ts
      codeRewardCols st0 hcodes hncr hok
    unfold sync_codes
    rw [if_pos hcodes]
    dsimp only
    rw [show decide ("code_rewards" ∈ existing_tables) = false
      by simp [hncr]]
    rw [if_neg hncr]
    have hem := codesLoop_emits_unsorted resource_ids
      (tableHashesOf stored_hashes "codes") old_ts now
      (false && decide ("resource_id" ∈ codeRewardCols)) data
      (addStmt (addStmt st0 "DELETE FROM codes;")
        "ALTER TABLE codes AUTO_INCREMENT = 1;") 0 0 hok
    cases hrl : codesLoop resource_ids (tableHashesOf stored_hashes "codes")
        old_ts now false (false && decide ("resource_id" ∈ codeRewardCols))
        (addStmt (addStmt st0 "DELETE FROM codes;")
          "ALTER TABLE codes AUTO_INCREMENT = 1;") 0 0 data with
    | mk fst err =>
        rw [hrl] at hem
        cases fst with
        | mk st3 p =>
            cases p with
            | mk c_id reward_id =>
                obtain ⟨hs, he⟩ := hem
                subst he
                dsimp only
                rw [if_neg hncr]
                dsimp only [addPrint] at hs ⊢
                rw [hs]
                simp [addStmt, List.append_assoc]

/-- C2 — counterexample to the every-category claim: two codes arriving in
the order BBB, AAA.  Canonical `code_sort_key` order puts AAA first, yet
`sync_codes` emits BBB first with id 1 and AAA second with id 2 — input
order, not sort order. -/
theorem C2_counterexample :
    pySorted code_sort_key
        [[("code", Json.str "BBB")], [("code", Json.str "AAA")]] =
      [[("code", Json.str "AAA")], [("code", Json.str "BBB")]] ∧
    (sync_codes [[("code", Json.str "BBB")], [("code", Json.str "AAA")]]
        ["codes"] [] 0 [] [] [] emptySt).1.stmts =
      ["DELETE FROM codes;", "ALTER TABLE codes AUTO_INCREMENT = 1;",
       codeInsert 1 [("code", Json.str "BBB")] (Json.int 0)
         (compute_hash [("code", Json.str "BBB")]),
       codeInsert 2 [("code", Json.str "AAA")] (Json.int 0)
         (compute_hash [("code", Json.str "AAA")])] := by
  refine ⟨by decide, by decide⟩

/-- C2 — witness: the amended theorem at a one-resource run; the batch is
the resources preamble followed by the single id-1 parent INSERT. -/
theorem C2_witness :
    (sync_resources [[("name", Json.str "Gold")]] ["resources"] [] 0 [] [] []
        none [] emptySt).1.stmts =
      (if "code_rewards" ∈ ["resources"] &&
          "resource_id" ∈ ([] : List String) then
        emptySt.stmts ++ ["DELETE FROM code_rewards;",
          "ALTER TABLE code_rewards AUTO_INCREMENT = 1;"]
       else emptySt.stmts) ++
      ["DELETE FROM resources;", "ALTER TABLE resources AUTO_INCREMENT = 1;"] ++
      resInsertsFrom (tableHashesOf [] "resources") [] 0 0
        (pySorted resource_sort_key [[("name", Json.str "Gold")]]) :=
  C2_parent_order_amended.1 [[("name", Json.str "Gold")]] ["resources"] [] 0
    [] [] [] emptySt (by decide) (by decide)

/-- Lookup across an association-list append: the left list wins. -/
theorem plookup_append {β : Type} (a b : List (Json × β)) (k : Json) :
    plookup (a ++ b) k =
      match plookup a k with
      | some v => some v
      | none => plookup b k := by
  induction a with
  | nil => rfl
  | cons hd tl ih =>
      simp only [plookup, List.cons_append, List.find?]
      cases hd1 : decide (hd.1 = k) with
      | true => rfl
      | false => simpa [plookup] using ih

/-- The `build_resource_id_map` fold agrees with the resources pass's
emission: under distinct truthy names, every id the map assigns is the id of
the parent-row INSERT the pass emits for that name. -/
theorem bmap_fold_lookup (th : List (String × Json))
    (ots : List (String × String × String)) (now : Int) :
    ∀ (l : List Entity) (acc : List (Json × Nat)) (rid : Nat),
      (truthyNames l).Nodup →
      (∀ n ∈ truthyNames l, plookup acc n = none) →
      ∀ (R : Json) (i : Nat),
        plookup ((l.foldl
          (fun st r =>
            let name := pyGetD r "name" .null
            if !truthy name || (plookup st.1 name).isSome then st
            else (st.1 ++ [(name, st.2 + 1)], st.2 + 1))
          (acc, rid)).1) R = some i →
        plookup acc R = some i ∨
        ∃ r : Entity, pyReq r "name" = R ∧
          resourceInsert i r
              (resolve_timestamp R (compute_hash r) ots now (some th))
              (compute_hash r) ∈
            resInsertsFrom th ots now rid l := by
  intro l
  induction l with
  | nil => intro acc rid _ _ R i h; exact .inl h
  | cons r rest ih =>
      intro acc rid hnd hdisj R i h
      simp only [List.foldl] at h
      by_cases htr : truthy (pyGetD r "name" .null) = true
      · have hname : pyGetD r "name" .null ∈ truthyNames (r :: rest) := by
          simp [truthyNames, List.filter, htr]
        have hnil : plookup acc (pyGetD r "name" .null) = none :=
          hdisj _ hname
        have hcons : truthyNames (r :: rest) =
            pyGetD r "name" .null :: truthyNames rest := by
          simp [truthyNames, List.filter, htr]
        rw [hcons] at hnd
        have hnotin := (List.nodup_cons.mp hnd).1
        have hndrest := (List.nodup_cons.mp hnd).2
        rw [show (!truthy (pyGetD r "name" .null) ||
            (plookup acc (pyGetD r "name" .null)).isSome) = false
          by rw [htr, hnil]; rfl] at h
        simp only [Bool.false_eq_true, if_false] at h
        have hdisj' : ∀ n ∈ truthyNames rest,
            plookup (acc ++ [(pyGetD r "name" .null, rid + 1)]) n = none := by
          intro n hn
          rw [plookup_append, hdisj n (by rw [hcons]; exact List.mem_cons_of_mem _ hn)]
          have hne : ¬ (pyGetD r "name" .null = n) := by
            intro he; exact hnotin (he ▸ hn)
          simp [plookup, List.find?, hne]
        rcases ih (acc ++ [(pyGetD r "name" .null, rid + 1)]) (rid + 1)
            hndrest hdisj' R i h with hacc | ⟨r2, hr2, hmem⟩
        · rw [plookup_append] at hacc
          cases hl : plookup acc R with
          | some v =>
              rw [hl] at hacc
              exact .inl hacc
          | none =>
              rw [hl] at hacc
              by_cases heq : pyGetD r "name" .null = R
              · have hi : i = rid + 1 := by
                  simp [plookup, List.find?, heq] at hacc
                  omega
                refine .inr ⟨r, heq, ?_⟩
                subst hi
                simp only [resInsertsFrom, if_pos htr]
                rw [show pyReq r "name" = R from heq]
                exact List.mem_cons_self _ _
              · simp [plookup, List.find?, heq] at hacc
        · refine .inr ⟨r2, hr2, ?_⟩
          simp only [resInsertsFrom, if_pos htr]
          exact List.mem_cons_of_mem _ hmem
      · have hf : truthy (pyGetD r "name" .null) = false :=
          Bool.eq_false_iff.mpr htr
        have hcons : truthyNames (r :: rest) = truthyNames rest := by
          simp [truthyNames, List.filter, hf]
        rw [hcons] at hnd
        rw [show (!truthy (pyGetD r "name" .null) ||
            (plookup acc (pyGetD r "name" .null)).isSome) = true
          by rw [hf]; rfl] at h
        simp only [if_true] at h
        rcases ih acc rid hnd (fun n hn => hdisj n (by rw [hcons]; exact hn))
            R i h with hacc | ⟨r2, hr2, hmem⟩
        · exact .inl hacc
        · refine .inr ⟨r2, hr2, ?_⟩
          simp only [resInsertsFrom, if_neg htr]
          exact hmem

/-- Every INSERT the resources pass produces for its sorted input appears in
the statement batch of an error-free `sync_resources` run. -/
theorem sync_resources_mem_inserts (data : List Entity)
    (existing_tables : List String) (resource_ids : List (Json × Nat))
    (now : Int) (stored_hashes : List (String × Json))
    (old_ts : List (String × String × String)) (codeRewardCols : List String)
    (st0 : St) (hres : "resources" ∈ existing_tables)
    (hok : resLoopOk (tableHashesOf stored_hashes "resources") old_ts now
      (pySorted resource_sort_key data) = true) :
    ∀ s ∈ resInsertsFrom (tableHashesOf stored_hashes "resources") old_ts now
        0 (pySorted resource_sort_key data),
      s ∈ (sync_resources data existing_tables resource_ids now stored_hashes
        old_ts codeRewardCols none [] st0).1.stmts := by
  intro s hs
  unfold sync_resources
  rw [if_pos hres]
  dsimp only
  by_cases hb : (decide ("code_rewards" ∈ existing_tables) &&
      decide ("resource_id" ∈ codeRewardCols)) = true
  · rw [if_pos hb]
    have hnone := resourcesLoop_ok_no_err
      (tableHashesOf stored_hashes "resources") old_ts now
      (pySorted resource_sort_key data)
      (addStmt (addStmt (addStmt (addStmt st0 "DELETE FROM code_rewards;")
        "ALTER TABLE code_rewards AUTO_INCREMENT = 1;")
        "DELETE FROM resources;") "ALTER TABLE resources AUTO_INCREMENT = 1;")
      0 hok
    have hem := resourcesLoop_emits
      (tableHashesOf stored_hashes "resources") old_ts now
      (pySorted resource_sort_key data)
      (addStmt (addStmt (addStmt (addStmt st0 "DELETE FROM code_rewards;")
        "ALTER TABLE code_rewards AUTO_INCREMENT = 1;")
        "DELETE FROM resources;") "ALTER TABLE resources AUTO_INCREMENT = 1;")
      0 hok
    cases hrl : resourcesLoop (tableHashesOf stored_hashes "resources")
        old_ts now
        (addStmt (addStmt (addStmt (addStmt st0 "DELETE FROM code_rewards;")
          "ALTER TABLE code_rewards AUTO_INCREMENT = 1;")
          "DELETE FROM resources;")
          "ALTER TABLE resources AUTO_INCREMENT = 1;") 0
        (pySorted resource_sort_key data) with
    | mk fst err =>
        rw [hrl] at hnone hem
        cases fst with
        | mk st3 r_id =>
            subst hnone
            dsimp only [addPrint]
            dsimp only at hem
            rw [hem]
            exact List.mem_append_right _ hs
  · rw [if_neg hb]
    have hnone := resourcesLoop_ok_no_err
      (tableHashesOf stored_hashes "resources") old_ts now
      (pySorted resource_sort_key data)
      (addStmt (addStmt st0 "DELETE FROM resources;")
        "ALTER TABLE resources AUTO_INCREMENT = 1;") 0 hok
    have hem := resourcesLoop_emits
      (tableHashesOf stored_hashes "resources") old_ts now
      (pySorted resource_sort_key data)
      (addStmt (addStmt st0 "DELETE FROM resources;")
        "ALTER TABLE resources AUTO_INCREMENT = 1;") 0 hok
    cases hrl : resourcesLoop (tableHashesOf stored_hashes "resources")
        old_ts now
        (addStmt (addStmt st0 "DELETE FROM resources;")
          "ALTER TABLE resources AUTO_INCREMENT = 1;") 0
        (pySorted resource_sort_key data) with
    | mk fst err =>
        rw [hrl] at hnone hem
        cases fst with
        | mk st3 r_id =>
            subst hnone
            dsimp only [addPrint]
            dsimp only at hem
            rw [hem]
            exact List.mem_append_right _ hs

/-- C3 — confirmed (under the spec's own uniqueness invariant on identity
values).  (1) Every id assigned by `build_resource_id_map` is the id of the
parent-row INSERT an error-free `sync_resources` run emits for that name:
the precomputed map agrees with the normalizer's actual insert order.
(2) A resolved reward row emits a `code_rewards` INSERT carrying exactly the
mapped resource id (and the next sequential reward-row id). -/
theorem C3_reward_id_alignment :
    (∀ (data : List Entity) (existing_tables : List String)
        (resource_ids : List (Json × Nat)) (now : Int)
        (stored_hashes : List (String × Json))
        (old_ts : List (String × String × String))
        (codeRewardCols : List String) (st0 : St) (R : Json) (i : Nat),
      "resources" ∈ existing_tables →
      resLoopOk (tableHashesOf stored_hashes "resources") old_ts now
        (pySorted resource_sort_key data) = true →
      (truthyNames (pySorted resource_sort_key data)).Nodup →
      plookup (build_resource_id_map data) R = some i →
      ∃ r : Entity, pyReq r "name" = R ∧
        resourceInsert i r
            (resolve_timestamp R (compute_hash r) old_ts now
              (some (tableHashesOf stored_hashes "resources")))
            (compute_hash r) ∈
          (sync_resources data existing_tables resource_ids now stored_hashes
            old_ts codeRewardCols none [] st0).1.stmts) ∧
    (∀ (resource_ids : List (Json × Nat)) (cid : Nat) (cv name qv : Json)
        (rest : List (Json × Json)) (st : St) (rid resId : Nat),
      truthy name = true → plookup resource_ids name = some resId →
      codesRewardLoop resource_ids true cid cv st rid ((name, qv) :: rest) =
        codesRewardLoop resource_ids true cid cv
          (addStmt st (codeRewardInsert (rid + 1) (cid : Int) resId qv))
          (rid + 1) rest) := by
  constructor
  · intro data existing_tables resource_ids now stored_hashes old_ts
      codeRewardCols st0 R i hres hok hnd hmap
    unfold build_resource_id_map at hmap
    rcases bmap_fold_lookup (tableHashesOf stored_hashes "resources") old_ts
        now (pySorted resource_sort_key data) [] 0 hnd
        (fun n _ => rfl) R i hmap with hacc | ⟨r, hr, hmem⟩
    · exact absurd hacc (by simp [plookup])
    · exact ⟨r, hr, sync_resources_mem_inserts data existing_tables
        resource_ids now stored_hashes old_ts codeRewardCols st0 hres hok _
        hmem⟩
  · intro resource_ids cid cv name qv rest st rid resId ht hlk
    simp only [codesRewardLoop]
    rw [if_pos ht, hlk]
    rfl

/-- C3 — witness: the spec's Gold example.  `build_resource_id_map` assigns
Gold id 1; the run's batch contains the id-1 Gold INSERT, and a reward
`{"Gold": 100}` emits a `code_rewards` row with resource_id 1 and
quantity 100. -/
theorem C3_witness :
    (∃ r : Entity, pyReq r "name" = Json.str "Gold" ∧
      resourceInsert 1 r
          (resolve_timestamp (Json.str "Gold") (compute_hash r) [] 0
            (some (tableHashesOf [] "resources")))
          (compute_hash r) ∈
        (sync_resources [[("name", Json.str "Gold")]] ["resources"] [] 0 []
          [] [] none [] emptySt).1.stmts) ∧
    codesRewardLoop [(Json.str "Gold", 1)] true 7 (Json.str "ABC") emptySt 0
        [(Json.str "Gold", Json.int 100)] =
      codesRewardLoop [(Json.str "Gold", 1)] true 7 (Json.str "ABC")
        (addStmt emptySt (codeRewardInsert 1 (7 : Int) 1 (Json.int 100))) 1
        [] :=
  ⟨C3_reward_id_alignment.1 [[("name", Json.str "Gold")]] ["resources"] [] 0
    [] [] [] emptySt (Json.str "Gold") 1 (by decide) (by decide) (by decide)
    (by decide),
   C3_reward_id_alignment.2 [(Json.str "Gold", 1)] 7 (Json.str "ABC")
    (Json.str "Gold") (Json.int 100) [] emptySt 0 1 (by decide) (by decide)⟩

/-- The artifact-link fold of `sync_factions` emits one
`faction_recommended_artifacts` INSERT per collected name — including names
that were only warned about. -/
theorem fraFold_stmts (fid : Nat) :
    ∀ (names : List (Nat × String)) (st : St),
      (names.foldl (fun s p => addStmt s (fraInsert fid p.1 p.2)) st).stmts =
        st.stmts ++ names.map (fun p => fraInsert fid p.1 p.2) := by
  intro names
  induction names with
  | nil => intro st; simp
  | cons hd tl ih =>
      intro st
      simp only [List.foldl, List.map]
      rw [ih]
      simp [addStmt]

/-- C5 — amended.  What actually happens to an unresolved soft reference
depends on the reference kind: (1) a faction's unknown artifact name is
warned about but *kept* — the collected list still receives it, (2) and the
link fold emits one child INSERT per collected name, so the warned name gets
a row; (3) a character's unknown subclass is warned about but its
`character_subclasses` row is still inserted (with a NULL link on the
modern schema); (4) a character's unresolved faction name is skipped with
*no* warning and no row.  None of these paths can raise, so the run indeed
continues. -/
theorem C5_soft_ref_amended :
    (∀ (known : List String) (fname : Json) (st : St) (acc : List String)
        (a : Json) (rest : List Json),
      normArtifactName a ≠ "" → known ≠ [] → normArtifactName a ∉ known →
      recArtifactsLoop known fname st acc (a :: rest) =
        recArtifactsLoop known fname
          (addPrint st (warnFactionArtifact fname (normArtifactName a)))
          (acc ++ [normArtifactName a]) rest) ∧
    (∀ (fid : Nat) (names : List (Nat × String)) (st : St),
      (names.foldl (fun s p => addStmt s (fraInsert fid p.1 p.2)) st).stmts =
        st.stmts ++ names.map (fun p => fraInsert fid p.1 p.2)) ∧
    (∀ (m : List (String × Nat)) (cname ccls : Json) (has_col : Bool)
        (cid : Nat) (st : St) (sid : Nat) (sc : Json) (rest : List Json),
      truthy sc = true → m.find? (fun kv => Json.str kv.1 = sc) = none →
      charSubclassesLoop (some m) none cname ccls has_col cid st sid
          (sc :: rest) =
        charSubclassesLoop (some m) none cname ccls has_col cid
          (addStmt (addPrint st (warnUnknownSubclass cname sc))
            (if has_col then charSubclassInsertFull (sid + 1) cid none sc
             else charSubclassInsertPlain (sid + 1) cid sc))
          (sid + 1) rest) ∧
    (∀ (faction_ids : List (Json × Nat)) (cid : Nat) (st : St)
        (fnames : List Json),
      (∀ fn ∈ fnames, plookup faction_ids fn = none) →
      charFactionsLoop faction_ids cid st fnames = st) := by
  refine ⟨?_, fraFold_stmts, ?_, ?_⟩
  · intro known fname st acc a rest hnn hke hnk
    simp only [recArtifactsLoop]
    rw [if_neg hnn]
    rw [show (!known.isEmpty && decide (normArtifactName a ∉ known)) = true by
      cases known with
      | nil => exact absurd rfl hke
      | cons k ks => simp [List.isEmpty, hnk]]
    rfl
  · intro m cname ccls has_col cid st sid sc rest ht hfind
    simp only [charSubclassesLoop]
    rw [if_pos ht, hfind]
    rfl
  · intro faction_ids cid st fnames
    unfold charFactionsLoop
    have haux : ∀ (l : List Json) (n : Nat) (s : St),
        (∀ fn ∈ l, plookup faction_ids fn = none) →
        ((l.enumFrom n).foldl
          (fun s p =>
            match plookup faction_ids p.2 with
            | some fid =>
                if fid ≠ 0 then addStmt s (cfInsert (cid : Int) fid p.1) else s
            | none => s) s) = s := by
      intro l
      induction l with
      | nil => intro n s _; rfl
      | cons f fs ih =>
          intro n s hall
          simp only [List.enumFrom, List.foldl]
          rw [hall f (List.mem_cons_self _ _)]
          exact ih (n + 1) s (fun fn hfn => hall fn (List.mem_cons_of_mem _ hfn))
    exact haux fnames 1 st

/-- C5 — counterexample to "produces no row for that reference": faction
Alpha recommends the artifact Sword, unknown to the artifacts data (which
knows only Shield).  The run warns — and still emits the
`faction_recommended_artifacts` row for Sword; it finishes without error. -/
theorem C5_counterexample :
    (sync_factions [[("name", Json.str "Alpha"),
        ("recommended_artifacts",
          Json.arr (JArr.cons (Json.str "Sword") JArr.nil))]]
      [[("name", Json.str "Shield")]] 0 [] [] none [] emptySt).2 = none ∧
    warnFactionArtifact (Json.str "Alpha") "Sword" ∈
      (sync_factions [[("name", Json.str "Alpha"),
          ("recommended_artifacts",
            Json.arr (JArr.cons (Json.str "Sword") JArr.nil))]]
        [[("name", Json.str "Shield")]] 0 [] [] none [] emptySt).1.prints ∧
    fraInsert 1 1 "Sword" ∈
      (sync_factions [[("name", Json.str "Alpha"),
          ("recommended_artifacts",
            Json.arr (JArr.cons (Json.str "Sword") JArr.nil))]]
        [[("name", Json.str "Shield")]] 0 [] [] none [] emptySt).1.stmts := by
  refine ⟨by decide, by decide, by decide⟩

/-- C5 — witness: the amended theorem at concrete inputs — the unknown
artifact Sword is warned about yet collected; the unknown subclass is warned
about yet inserted with a NULL link; the unresolved faction reference leaves
the state untouched. -/
theorem C5_witness :
    recArtifactsLoop ["Shield"] (Json.str "Alpha") emptySt []
        [Json.str "Sword"] =
      recArtifactsLoop ["Shield"] (Json.str "Alpha")
        (addPrint emptySt (warnFactionArtifact (Json.str "Alpha") "Sword"))
        ["Sword"] [] ∧
    charSubclassesLoop (some [("Knight", 4)]) none (Json.str "Hero")
        (Json.str "Warrior") true 2 emptySt 0 [Json.str "Mystic"] =
      charSubclassesLoop (some [("Knight", 4)]) none (Json.str "Hero")
        (Json.str "Warrior") true 2
        (addStmt (addPrint emptySt
          (warnUnknownSubclass (Json.str "Hero") (Json.str "Mystic")))
          (charSubclassInsertFull 1 2 none (Json.str "Mystic"))) 1 [] ∧
    charFactionsLoop [] 3 emptySt [Json.str "Lost"] = emptySt := by
  refine ⟨?_, ?_, ?_⟩
  · have h := C5_soft_ref_amended.1 ["Shield"] (Json.str "Alpha") emptySt []
      (Json.str "Sword") [] (by decide) (by decide) (by decide)
    simpa using h
  · have h := C5_soft_ref_amended.2.2.1 [("Knight", 4)] (Json.str "Hero")
      (Json.str "Warrior") true 2 emptySt 0 (Json.str "Mystic") []
      (by decide) (by decide)
    simpa using h
  · exact C5_soft_ref_amended.2.2.2 [] 3 emptySt [Json.str "Lost"]
      (fun fn hfn => rfl)

/-- C8 — confirmed.  An entity whose identity value is missing or falsy is
passed over with the accumulated state untouched: the rest of the run starts
from the very same statement batch, console output, hash store and row
counters — no INSERT for it or its children, no hash-store entry, no
warning.  (For factions only the `enumerate` index advances, as in the
source.) -/
theorem C8_falsy_identity_skipped :
    (∀ (known : List String) (th : List (String × Json))
        (ots : List (String × String × String)) (now : Int) (st : St)
        (i rc : Nat) (f : Entity) (rest : List Entity),
      truthy (pyGetD f "name" .null) = false →
      factionsLoop known th ots now st i rc (f :: rest) =
        factionsLoop known th ots now st (i + 1) rc rest) ∧
    (∀ (th : List (String × Json)) (ots : List (String × String × String))
        (now : Int) (st : St) (sid bid lid : Nat) (sc : Entity)
        (rest : List Entity),
      pyOrEmptyStrip (pyGetD sc "name" .null) = .ok "" →
      subclassesLoop th ots now st sid bid lid (sc :: rest) =
        subclassesLoop th ots now st sid bid lid rest) := by
  constructor
  · intro known th ots now st i rc f rest hf
    simp only [factionsLoop]
    rw [if_neg (by simp [hf])]
  · intro th ots now st sid bid lid sc rest hok
    simp only [subclassesLoop]
    rw [hok]
    rfl

/-- C8 — witness: a faction with an empty name and a subclass with no name
field at all are both skipped with the state unchanged. -/
theorem C8_witness :
    factionsLoop [] [] [] 0 emptySt 0 0 [[("name", Json.str "")]] =
      factionsLoop [] [] [] 0 emptySt 1 0 [] ∧
    subclassesLoop [] [] 0 emptySt 0 0 0 [[("tier", Json.int 3)]] =
      subclassesLoop [] [] 0 emptySt 0 0 0 [] :=
  ⟨C8_falsy_identity_skipped.1 [] [] [] 0 emptySt 0 0 [("name", Json.str "")]
    [] (by decide),
   C8_falsy_identity_skipped.2 [] [] 0 emptySt 0 0 0 [("tier", Json.int 3)]
    [] (by decide)⟩

theorem serObj_ofList (l : List (String × Json)) :
    serObj (JObj.ofList l) = l.map (fun kv => (kv.1, serJson kv.2)) := by
  induction l with
  | nil => rfl
  | cons kv tl ih => cases kv; simp [JObj.ofList, serObj, ih]

theorem str_eq_of_data (s t : String) (h : s.data = t.data) : s = t := by
  cases s; cases t; exact congrArg String.mk h

/-- `json.dumps(..., sort_keys=True)` writes the same item sequence for any
two key-permutations of an object with distinct keys. -/
theorem sortPairs_perm_eq (m1 m2 : List (String × String))
    (hp : m1.Perm m2) (hnd : (m1.map Prod.fst).Nodup) :
    sortPairsByKey m1 = sortPairsByKey m2 := by
  have h1 := pairwise_pySorted
    (fun p : String × String => [LexAtom.chars p.1.data]) m1
  have h2 := pairwise_pySorted
    (fun p : String × String => [LexAtom.chars p.1.data]) m2
  have hperm : (sortPairsByKey m1).Perm (sortPairsByKey m2) :=
    (pySortedBy_perm _ m1).trans (hp.trans (pySortedBy_perm _ m2).symm)
  refine eq_of_perm_of_pairwise _ _ _ h1 h2 hperm
    (fun a _ => lexLeB_refl _) ?_
  intro a ha b hb hab hba
  have hkeys : [LexAtom.chars a.1.data] = [LexAtom.chars b.1.data] :=
    lexLeB_antisymm_eq _ _ hab hba
  have hd : a.1.data = b.1.data := by
    injection hkeys with hhd _
    injection hhd
  have hk : a.1 = b.1 := str_eq_of_data _ _ hd
  have hma : a ∈ m1 := ((pySortedBy_perm _ m1).mem_iff).mp ha
  have hmb : b ∈ m1 := ((pySortedBy_perm _ m1).mem_iff).mp hb
  exact List.inj_on_of_nodup_map hnd hma hmb hk

/-- `compute_hash` is a function of the multiset of non-volatile fields:
any reordering (with distinct clean keys) hashes identically. -/
theorem compute_hash_perm (e1 e2 : Entity)
    (hp : (e1.filter (fun kv => kv.1 ≠ "last_updated" && kv.1 ≠ "data_hash")).Perm
      (e2.filter (fun kv => kv.1 ≠ "last_updated" && kv.1 ≠ "data_hash")))
    (hnd : ((e1.filter
      (fun kv => kv.1 ≠ "last_updated" && kv.1 ≠ "data_hash")).map
        Prod.fst).Nodup) :
    compute_hash e1 = compute_hash e2 := by
  have hndm : (((e1.filter
      (fun kv => kv.1 ≠ "last_updated" && kv.1 ≠ "data_hash")).map
        (fun kv => (kv.1, serJson kv.2))).map Prod.fst).Nodup := by
    rw [List.map_map]
    exact hnd
  have key : sortPairsByKey (serObj (JObj.ofList (e1.filter
        (fun kv => kv.1 ≠ "last_updated" && kv.1 ≠ "data_hash")))) =
      sortPairsByKey (serObj (JObj.ofList (e2.filter
        (fun kv => kv.1 ≠ "last_updated" && kv.1 ≠ "data_hash")))) := by
    rw [serObj_ofList, serObj_ofList]
    exact sortPairs_perm_eq _ _ (hp.map _) hndm
  show sha256Hex ("\x7b" ++
      joinComma ((sortPairsByKey (serObj (JObj.ofList (e1.filter
        (fun kv => kv.1 ≠ "last_updated" && kv.1 ≠ "data_hash"))))).map
        (fun p => jsonQuote p.1 ++ ": " ++ p.2)) ++ "\x7d") =
    sha256Hex ("\x7b" ++
      joinComma ((sortPairsByKey (serObj (JObj.ofList (e2.filter
        (fun kv => kv.1 ≠ "last_updated" && kv.1 ≠ "data_hash"))))).map
        (fun p => jsonQuote p.1 ++ ": " ++ p.2)) ++ "\x7d")
  rw [key]

theorem sha256Nat_lt (msg : List Nat) :
    sha256Nat msg <
      115792089237316195423570985008687907853269984665640564039457584007913129639936 := by
  unfold sha256Nat
  exact Nat.mod_lt _ (by positivity)

/-- C6 — amended.  The invariance half of the claim holds: the digest
ignores the volatile fields entirely (conjunct 2) and is a function of the
multiset of remaining fields — any key reordering of entities with distinct
clean keys hashes identically (conjunct 1).  The sensitivity half cannot
hold unconditionally: the digest space is finite, so distinct semantic
values must collide somewhere (see the counterexample). -/
theorem C6_hash_invariance_amended :
    (∀ e1 e2 : Entity,
      (e1.filter
        (fun kv => kv.1 ≠ "last_updated" && kv.1 ≠ "data_hash")).Perm
        (e2.filter
          (fun kv => kv.1 ≠ "last_updated" && kv.1 ≠ "data_hash")) →
      ((e1.filter
        (fun kv => kv.1 ≠ "last_updated" && kv.1 ≠ "data_hash")).map
          Prod.fst).Nodup →
      compute_hash e1 = compute_hash e2) ∧
    (∀ (e : Entity) (v1 v2 : Json),
      compute_hash (("last_updated", v1) :: ("data_hash", v2) :: e) =
        compute_hash e) :=
  ⟨compute_hash_perm, fun _ _ _ => rfl⟩

/-- C6 — counterexample to "changing any semantic field value changes the
digest": the digest has at most 2^256 values while the semantic value space
is unbounded, so two entities differing only in the value of the semantic
field `a` share a digest. -/
theorem C6_counterexample :
    ∃ v1 v2 : String, v1 ≠ v2 ∧
      compute_hash [("a", Json.str v1)] = compute_hash [("a", Json.str v2)] := by
  have hmaps : ∀ n ∈ Finset.range
      (115792089237316195423570985008687907853269984665640564039457584007913129639936 + 1),
      (fun n => sha256Nat (utf8Encode (serJson (Json.obj (JObj.ofList
        [("a", Json.str (String.mk (List.replicate n 'a')))]))))) n ∈
      Finset.range
        115792089237316195423570985008687907853269984665640564039457584007913129639936 :=
    fun n _ => Finset.mem_range.mpr (sha256Nat_lt _)
  have hcard : (Finset.range
      115792089237316195423570985008687907853269984665640564039457584007913129639936).card <
      (Finset.range
        (115792089237316195423570985008687907853269984665640564039457584007913129639936 + 1)).card := by
    simp
  obtain ⟨m, hm, k, hk, hmk, heq⟩ :=
    Finset.exists_ne_map_eq_of_card_lt_of_maps_to hcard hmaps
  refine ⟨String.mk (List.replicate m 'a'), String.mk (List.replicate k 'a'),
    ?_, ?_⟩
  · intro he
    apply hmk
    have hlen := congrArg (fun s : String => s.data.length) he
    simpa using hlen
  · show hex64 (sha256Nat (utf8Encode (serJson (Json.obj (JObj.ofList
        [("a", Json.str (String.mk (List.replicate m 'a')))]))))) =
      hex64 (sha256Nat (utf8Encode (serJson (Json.obj (JObj.ofList
        [("a", Json.str (String.mk (List.replicate k 'a')))])))))
    exact congrArg hex64 heq

/-- C6 — witness: a concrete reordering with a volatile field added hashes
identically to the plain two-field entity. -/
theorem C6_witness :
    compute_hash [("b", Json.int 1), ("a", Json.int 2),
        ("last_updated", Json.str "x")] =
      compute_hash [("a", Json.int 2), ("b", Json.int 1)] :=
  C6_hash_invariance_amended.1
    [("b", Json.int 1), ("a", Json.int 2), ("last_updated", Json.str "x")]
    [("a", Json.int 2), ("b", Json.int 1)] (by decide) (by decide)
